import Mathlib

/-!
Verification of the dRAID (distributed RAID) core of OpenZFS.

This file gives a shallow embedding, over `ℕ`, of the dRAID permutation
engine, geometry arithmetic, stripe builder and distributed-spare vdev
(`vdev_draid.c` together with its header `vdev_draid.h`), and proves
properties of that embedding.  Machine `uint64_t`/`uint16_t` arithmetic is
modelled with explicit reduction modulo `2 ^ 64` / `2 ^ 16` wherever
overflow or wraparound can occur and is observable.
-/

namespace Draid

/-- Abstract errno values; only their distinctness matters. -/
def EINVAL : ℕ := 22

/-- errno: no such entry. -/
def ENOENT : ℕ := 2

/-- errno: checksum mismatch (`ECKSUM`). -/
def ECKSUM : ℕ := 122

/-- errno: no such device or address. -/
def ENXIO : ℕ := 6

/-- errno: I/O error. -/
def EIO : ℕ := 5

/-- errno: operation not supported. -/
def ENOTSUP : ℕ := 95

/-- vdev aux state: no valid replicas (`VDEV_AUX_NO_REPLICAS`). -/
def VDEV_AUX_NO_REPLICAS : ℕ := 1

/-- `2 ^ 64`, the modulus of `uint64_t` arithmetic. -/
def w64 : ℕ := 2 ^ 64

/-- The `roundup(x, y)` macro: `((((x)+((y)-1))/(y))*(y))`. -/
def roundup (x y : ℕ) : ℕ := ((x + (y - 1)) / y) * y

/-- `VDEV_DRAID_MAX_MAPS`: number of rows of the frozen permutation-map table. -/
def VDEV_DRAID_MAX_MAPS : ℕ := 254

/-- `draid_map_t`: a permutation map.  `dm_perms` is the flat
`dm_children × dm_nperms` byte array (row-major); for the entries of the
frozen seed table it is empty (the C table stores a null pointer). -/
structure draid_map where
  dm_children : ℕ
  dm_nperms : ℕ
  dm_seed : ℕ
  dm_checksum : ℕ
  dm_perms : List ℕ
  deriving Repr, DecidableEq

/-- The out-of-bounds "entry" used when the lookup loop reads one cell past
the frozen table (unspecified memory in C); kept as an explicit parameter of
the lookup model so that nothing is assumed about it. -/
def draid_map_zero : draid_map := ⟨0, 0, 0, 0, []⟩

/-- The frozen table `draid_maps` of `(children, nperms, seed, checksum)`
rows, copied verbatim from the source (254 entries, children 2..255). -/
def draid_maps : List draid_map := [
  draid_map.mk 2 256 0xd27b123486e72fe2 0x000000003848433d [],
  draid_map.mk 3 256 0x625f944e90fc7b1f 0x00000000a8bfd5c4 [],
  draid_map.mk 4 256 0xc9ea9ec82340c885 0x00000001819d7c69 [],
  draid_map.mk 5 256 0xf46733b7f4d47dfd 0x00000002a1648d74 [],
  draid_map.mk 6 256 0x88c3c62d8585b362 0x00000003d3b0c2c4 [],
  draid_map.mk 7 256 0xb60bf1766a5ae0bd 0x0000000532571d69 [],
  draid_map.mk 8 256 0xe98930e3c5d2e90a 0x00000006edfb0329 [],
  draid_map.mk 9 256 0x5a5430036b982ccb 0x00000008ceaf6934 [],
  draid_map.mk 10 256 0x835aa99465b2144e 0x0000000b5e2e3164 [],
  draid_map.mk 11 256 0x74ccebf1dcf3ae80 0x0000000dd691358c [],
  draid_map.mk 12 256 0x1066c9233dd86924 0x000000108eb93aaf [],
  draid_map.mk 13 256 0x7481b56debf0e637 0x0000001424121fe4 [],
  draid_map.mk 14 256 0x559b8c44065f8967 0x00000016ab2ff079 [],
  draid_map.mk 15 256 0x34c49545a2ee7f01 0x0000001a6028efd6 [],
  draid_map.mk 16 256 0x4ebc50d1ac2e964f 0x0000001db337b2bd [],
  draid_map.mk 17 256 0xb25b240b051dcfe0 0x000000219d7efc4e [],
  draid_map.mk 18 256 0x79606dfe4b053b1f 0x0000002680164399 [],
  draid_map.mk 19 256 0x892e343f2f31d690 0x00000029eb392835 [],
  draid_map.mk 20 256 0x7a98ffad8a39b449 0x0000002fe8fe2087 [],
  draid_map.mk 21 256 0x4b3cbabf9cfb1d0f 0x00000036363a2408 [],
  draid_map.mk 22 256 0xf45c77abb4f035d4 0x00000038dd0f3e84 [],
  draid_map.mk 23 256 0x541b50c5ff1b281b 0x0000003f6a371b02 [],
  draid_map.mk 24 256 0xab0666c148ed3a60 0x0000004583a52f77 [],
  draid_map.mk 25 256 0xd82c5eaad94c5e5b 0x0000004c40869188 [],
  draid_map.mk 26 256 0x3a42dfda4eb880f7 0x000000522c719bba [],
  draid_map.mk 27 256 0xd200d2fc6b54bf60 0x0000005760b4fdf5 [],
  draid_map.mk 28 256 0xaf07d893ffd1986e 0x0000005e0dc49ab0 [],
  draid_map.mk 29 256 0xc761779e63cd762f 0x00000067be3cd85c [],
  draid_map.mk 30 256 0xca577b1e07f85ca5 0x0000006f5517f3e4 [],
  draid_map.mk 31 256 0xfd50a593c518b3d4 0x0000007370e7778f [],
  draid_map.mk 32 256 0x220c7a6cb145fd23 0x0000007d9d9fa78f [],
  draid_map.mk 33 256 0xeebbb3d6d40970a5 0x00000083a14e3e60 [],
  draid_map.mk 34 256 0xc94fe19955410228 0x0000008f63355eac [],
  draid_map.mk 35 256 0xb3657369900a545c 0x00000095a7c566eb [],
  draid_map.mk 36 256 0x1d1fa86e430aed40 0x0000009cff7669fb [],
  draid_map.mk 37 256 0x41d4567a236661cb 0x000000a7d66b278b [],
  draid_map.mk 38 256 0x72876b9ff093b21c 0x000000ae9bc47f33 [],
  draid_map.mk 39 256 0xf5a7e1ea513951c2 0x000000bcb616da83 [],
  draid_map.mk 40 256 0x1f86f0f407867aad 0x000000c30e0445f3 [],
  draid_map.mk 41 256 0xc70c00ed99f77eae 0x000000cd23b394fd [],
  draid_map.mk 42 256 0x47597ce12c6de3f5 0x000000d7a3ac5add [],
  draid_map.mk 43 256 0x7257467388cb31e6 0x000000e266068ab0 [],
  draid_map.mk 44 256 0xe36feeacae79ea7a 0x000000eeac6dc5e6 [],
  draid_map.mk 45 256 0x57f3441d83fb9eb9 0x000000f5f65de1b5 [],
  draid_map.mk 46 256 0xcb89e7b41fcfede7 0x000001032761176b [],
  draid_map.mk 47 256 0x1d893b5b937e5aea 0x00000117017c4b5c [],
  draid_map.mk 48 256 0x2878979d4c91c493 0x000001183c88612d [],
  draid_map.mk 49 256 0x63f19c2ce78edeee 0x000001296ed0ee44 [],
  draid_map.mk 50 256 0x1e1d40408bc716aa 0x00000134cff620b1 [],
  draid_map.mk 51 256 0x2fcb046eeb1f207b 0x0000013f67caf09c [],
  draid_map.mk 52 256 0x51d9ee3ca622717f 0x0000014c447c9d87 [],
  draid_map.mk 53 256 0x35e35cb929826075 0x0000015ba72c76c0 [],
  draid_map.mk 54 256 0x3a9ec2b0829222c9 0x00000168979646be [],
  draid_map.mk 55 256 0xd955efca98a311df 0x000001789b9cce52 [],
  draid_map.mk 56 256 0x445d2f84ade3469f 0x0000018564732e7d [],
  draid_map.mk 57 256 0x26b57da7b1e97273 0x0000019531d42382 [],
  draid_map.mk 58 256 0xdf7a90179e22dd3f 0x0000019e491ef47f [],
  draid_map.mk 59 256 0xe032972b59b70972 0x000001acac08341f [],
  draid_map.mk 60 256 0xb343e4cd3d287ddc 0x000001bb444b5e46 [],
  draid_map.mk 61 256 0xd8d4e54c3df7e3a7 0x000001c58fcda563 [],
  draid_map.mk 62 256 0x44334cc530fb29ba 0x000001dc18d75844 [],
  draid_map.mk 63 256 0x65ad35d57c47f507 0x000001ecae361bba [],
  draid_map.mk 64 256 0x2a3825f8c282e99f 0x000001f84a07afec [],
  draid_map.mk 65 256 0x834c9d0d3597a504 0x0000020bfd6d436c [],
  draid_map.mk 66 256 0x1d9e7b06f6c07a10 0x0000021ea362bb87 [],
  draid_map.mk 67 256 0x6cc1b2e96739fa55 0x000002265cdb7cce [],
  draid_map.mk 68 256 0xcfe89dfa4292bc17 0x00000233104ac39b [],
  draid_map.mk 69 256 0x438becb1fd00d4c2 0x000002505926acb4 [],
  draid_map.mk 70 256 0xf5b7e58a298b866c 0x0000025bbc74fbed [],
  draid_map.mk 71 256 0x0f43ba704002fc93 0x000002736934b7f3 [],
  draid_map.mk 72 256 0xf21c038144492c6f 0x0000027ccabc9669 [],
  draid_map.mk 73 256 0xe3ab5428b9f7df94 0x00000292e4ee9451 [],
  draid_map.mk 74 256 0x2b81da6ec6a9963d 0x000002a3e4435d6c [],
  draid_map.mk 75 256 0xf40420342b450c83 0x000002c30448b817 [],
  draid_map.mk 76 256 0x7ce590e7e8817733 0x000002cdfca4e1d9 [],
  draid_map.mk 77 256 0x663670846e05bb4b 0x000002dfec572132 [],
  draid_map.mk 78 256 0xa19572c41899d080 0x000002ed12dd46a0 [],
  draid_map.mk 79 256 0x5e07613ecf057f41 0x0000030aed6e6447 [],
  draid_map.mk 80 256 0xf4595de38313a5d3 0x000003159f7397a1 [],
  draid_map.mk 81 256 0xc54089d7d084125a 0x0000033234b59ff5 [],
  draid_map.mk 82 256 0xf908340da38c477b 0x00000339d35d1583 [],
  draid_map.mk 83 256 0xcfcded7072046406 0x000003504c96061c [],
  draid_map.mk 84 256 0x2af7e558a7e0f844 0x000003705d412574 [],
  draid_map.mk 85 256 0x37eb43e6bf49f751 0x0000037f68370ad3 [],
  draid_map.mk 86 256 0x99de847b1bb599b0 0x0000039721fa3c62 [],
  draid_map.mk 87 256 0x23688c8037026ffd 0x000003af9d3e8d8f [],
  draid_map.mk 88 256 0x3eb1120addbc60c1 0x000003c441d3ee37 [],
  draid_map.mk 89 256 0x7e9a8a06b63f9603 0x000003d7ab303470 [],
  draid_map.mk 90 256 0xd6f6f1850d1119c6 0x000003e87888f4d2 [],
  draid_map.mk 91 256 0x16946b638e95845b 0x000004091e6b0f69 [],
  draid_map.mk 92 256 0x2bc491717f9cd131 0x0000042146e172aa [],
  draid_map.mk 93 256 0x054affaef1562f3b 0x0000042f674b14cc [],
  draid_map.mk 94 256 0x54375dde674a6684 0x0000044c0df12ea6 [],
  draid_map.mk 95 256 0xa052855253694818 0x000004664c08a41f [],
  draid_map.mk 96 256 0xfc0849afa9f3604a 0x00000479b7cefede [],
  draid_map.mk 97 256 0x2908de4f98003934 0x0000048c02c0806e [],
  draid_map.mk 98 256 0xf8be7e271d7e53b5 0x0000049e9e828659 [],
  draid_map.mk 99 256 0x1b9435fdab22a5dd 0x000004c6070139f9 [],
  draid_map.mk 100 256 0x2a17c2b63f3943e1 0x000004da13183b24 [],
  draid_map.mk 101 256 0x8ae2ee0facdb9938 0x000004ec59eb8413 [],
  draid_map.mk 102 256 0x583c2f6cded9d3a9 0x0000050d25afb497 [],
  draid_map.mk 103 256 0x93a173e7214e3dfa 0x0000051ad37854d9 [],
  draid_map.mk 104 256 0x78af3e86fccdbc29 0x0000053f32a84d94 [],
  draid_map.mk 105 256 0x03367c2f007f7dac 0x00000552d02bff16 [],
  draid_map.mk 106 256 0x6fbce373324789ec 0x00000577c4e9b8ee [],
  draid_map.mk 107 256 0x93e4e36a6e6e1902 0x0000058f22ad9b3d [],
  draid_map.mk 108 256 0xbad08bd583345655 0x000005a22c650669 [],
  draid_map.mk 109 256 0xc3e137ae1dbe8f41 0x000005d1e236f82c [],
  draid_map.mk 110 256 0x0f55a3fe5723ea92 0x000005d7e3592444 [],
  draid_map.mk 111 256 0xa55f7f8bdf9a66cf 0x000005f1c8b42e4e [],
  draid_map.mk 112 256 0xa42b5f8c23f7a65c 0x00000614209d4444 [],
  draid_map.mk 113 256 0xe04327a36da3c095 0x000006409793dc82 [],
  draid_map.mk 114 256 0x5e1c0cafcaff22c5 0x0000063cb330ca51 [],
  draid_map.mk 115 256 0x947eeebeaa418c7b 0x0000067de838040c [],
  draid_map.mk 116 256 0x827a7e53c45fd591 0x00000691654028c2 [],
  draid_map.mk 117 256 0xee6c6422508b8081 0x000006c73cd1f5ca [],
  draid_map.mk 118 256 0x8d10f85f77136c9b 0x000006b780c28a86 [],
  draid_map.mk 119 256 0x3ac37b68ece309f7 0x000006dc2a3372d5 [],
  draid_map.mk 120 256 0xfac222ae91b52d75 0x000006fa4da340cd [],
  draid_map.mk 121 256 0x63f33b583c0f2798 0x0000071d247c5f54 [],
  draid_map.mk 122 256 0x615c622935825616 0x000007430c7176b3 [],
  draid_map.mk 123 256 0xc69189d76872af9a 0x0000075925c749d5 [],
  draid_map.mk 124 256 0xf4050a2ff3986a42 0x000007760b16d276 [],
  draid_map.mk 125 256 0xcff6bf9171a277cb 0x000007abf7457004 [],
  draid_map.mk 126 256 0xa13c261de2a975d7 0x000007b4edf43211 [],
  draid_map.mk 127 256 0xc5f4031a6cec6b01 0x000007deec966f87 [],
  draid_map.mk 128 256 0x698d21f61befa7d4 0x000007e95cbcb124 [],
  draid_map.mk 129 256 0x2be63bbe59df8854 0x0000081eba81b449 [],
  draid_map.mk 130 256 0x2180fdc70ba19fbe 0x00000840a86f275a [],
  draid_map.mk 131 256 0x3c7b47190d7bca47 0x0000085843c4ec0f [],
  draid_map.mk 132 256 0xd06a2656c2b16a2d 0x00000878dce5cdd6 [],
  draid_map.mk 133 256 0x89dc1fb8baa12726 0x00000894d45cfe9f [],
  draid_map.mk 134 256 0x6615e50866192f13 0x000008b110406a7d [],
  draid_map.mk 135 256 0xa609c9f54b9dbf7f 0x000008f64bbfa0cd [],
  draid_map.mk 136 256 0x8fb485f7b8431419 0x000008fc79ddf5ad [],
  draid_map.mk 137 256 0x40988bde38cfae15 0x0000090e944fe9a3 [],
  draid_map.mk 138 256 0x76f1fb825f1b5f3b 0x000009393a6b2604 [],
  draid_map.mk 139 256 0xb1768315ba1ef1c1 0x00000977ee6bb60b [],
  draid_map.mk 140 256 0x947aebd113c16275 0x000009995197900c [],
  draid_map.mk 141 256 0xebd7e73fcbfbd250 0x000009941f7d6a10 [],
  draid_map.mk 142 256 0xc7c62d687efa04ba 0x000009f1e7320726 [],
  draid_map.mk 143 256 0x2b97bc1ac9bfc727 0x000009dda86e488a [],
  draid_map.mk 144 256 0x71a4c7a0d1b93bca 0x00000a0ff5c6206a [],
  draid_map.mk 145 256 0x3db0fd9a2889f2d3 0x00000a3d5f8029a0 [],
  draid_map.mk 146 256 0x5e16a0936e6ebb4f 0x00000a61cfc44f33 [],
  draid_map.mk 147 256 0x48d86513d51d5ab3 0x00000a7a917df789 [],
  draid_map.mk 148 256 0x0e2707c29c7c80f7 0x00000ab8b21b090f [],
  draid_map.mk 149 256 0xeef6b90b2873078e 0x00000ad819b5f793 [],
  draid_map.mk 150 256 0x5c74901930f42aa5 0x00000b04bc34b61c [],
  draid_map.mk 151 256 0x6780b9b7ef3d1571 0x00000b13f0ac119c [],
  draid_map.mk 152 256 0x5f9f45931955b101 0x00000b3752cb069a [],
  draid_map.mk 153 256 0x3988cd9403516c78 0x00000b672b9f93c8 [],
  draid_map.mk 154 256 0x6e3215639bb8405c 0x00000b9567de82c9 [],
  draid_map.mk 155 256 0x45056fbc5e5f8730 0x00000bc2ba15e24d [],
  draid_map.mk 156 256 0x46049b760054472d 0x00000bcdec26b3c9 [],
  draid_map.mk 157 256 0xbef6de70a79f0a75 0x00000c2bd37f93e7 [],
  draid_map.mk 158 256 0xb3c5c3db7c9794d0 0x00000c3e23f9ed4e [],
  draid_map.mk 159 256 0x352d2822beba6d5c 0x00000c610d231c88 [],
  draid_map.mk 160 256 0xf30ee19ddd4afa2e 0x00000c6a6b246e6d [],
  draid_map.mk 161 256 0xce68dd4ab2dcd278 0x00000caeba617e2d [],
  draid_map.mk 162 256 0x613c9e78805e41cb 0x00000cbc2b0c61c2 [],
  draid_map.mk 163 256 0xeeab63f6eaebae4d 0x00000cfcb0895d26 [],
  draid_map.mk 164 256 0x8bb8428ee5865272 0x00000d2f9a8768a3 [],
  draid_map.mk 165 256 0xfe06cfee48df11fa 0x00000d5f4bc2b0e3 [],
  draid_map.mk 166 256 0xcfd6e29926b59b14 0x00000d6393bc05ee [],
  draid_map.mk 167 256 0x4ffb773628a1e28d 0x00000da911be9d37 [],
  draid_map.mk 168 256 0x54505b3532af3810 0x00000db8492201d0 [],
  draid_map.mk 169 256 0x81cabcc02e8336f1 0x00000e0420e97916 [],
  draid_map.mk 170 256 0x7303ecfd5788a7b0 0x00000e0934cfca6f [],
  draid_map.mk 171 256 0xd6d187fcca63bc41 0x00000e526875d3ed [],
  draid_map.mk 172 256 0x12b3d6b7cf93198e 0x00000e5cc7e5dfb3 [],
  draid_map.mk 173 256 0x68b87e58537cb3ed 0x00000e9322810a09 [],
  draid_map.mk 174 256 0xe592972360b1f188 0x00000ec9c33a5ed1 [],
  draid_map.mk 175 256 0x42226d7740fd95d5 0x00000ede204b3329 [],
  draid_map.mk 176 256 0x85e79ec390f0c4ce 0x00000f1174074484 [],
  draid_map.mk 177 256 0xfa0f8f8c35fcc819 0x00000f3f1ad39a3e [],
  draid_map.mk 178 256 0x990fc6d5576461c7 0x00000f87974caba0 [],
  draid_map.mk 179 256 0x356eb43b1804de5f 0x00000f9f2474d35e [],
  draid_map.mk 180 256 0x38aa9000d7aae573 0x00000fd5b6addd06 [],
  draid_map.mk 181 256 0x0b1763e2e5eebd1d 0x00000ffb76ce2b66 [],
  draid_map.mk 182 256 0xaed65bed47dedd57 0x0000101ac344590c [],
  draid_map.mk 183 256 0x77e4fbca8c7fd444 0x0000105d9c2a52c7 [],
  draid_map.mk 184 256 0x9bcd3c6860f00181 0x00001097462ff6f1 [],
  draid_map.mk 185 256 0x5b7f5b92a8f38b96 0x00001097827236eb [],
  draid_map.mk 186 256 0x4ec22016d2d85110 0x000010f77854adf5 [],
  draid_map.mk 187 256 0x8d4cfc15d3f88d91 0x000010f75120b900 [],
  draid_map.mk 188 256 0x52f131b1250220e8 0x00001158dfe4a41c [],
  draid_map.mk 189 256 0xfa5dc1ee85fdebd7 0x00001149e3d8e4af [],
  draid_map.mk 190 256 0xcc6e84d8c990a8a9 0x00001198c52212c5 [],
  draid_map.mk 191 256 0xaece605d95d3a751 0x000011bced5821f2 [],
  draid_map.mk 192 256 0x936556ede86f0b85 0x000011fb9c0b240f [],
  draid_map.mk 193 256 0x22d3eb1a6eca886f 0x00001231dbd85c54 [],
  draid_map.mk 194 256 0x0d64a83435ee5147 0x0000126ae7594a62 [],
  draid_map.mk 195 256 0x603fc435f11781d7 0x0000129d389a1f8b [],
  draid_map.mk 196 256 0x5d25211ece491c0c 0x000012c86c7bdc51 [],
  draid_map.mk 197 256 0x316ae4dd498cdb99 0x0000130c14089adf [],
  draid_map.mk 198 256 0x0689348fe03cffe5 0x0000130705e0bac0 [],
  draid_map.mk 199 256 0xb547ad5221c59950 0x0000135046838094 [],
  draid_map.mk 200 256 0x0d7c80c5dda4b4cb 0x000013a3e7132632 [],
  draid_map.mk 201 256 0x05d55e7d70bad126 0x000013bff4c42026 [],
  draid_map.mk 202 256 0x5b6b3399dbd2bcbd 0x000013f7b202914b [],
  draid_map.mk 203 256 0xdf46f56c41ea861d 0x0000142091c0ba26 [],
  draid_map.mk 204 256 0x6ab8a044718a698b 0x00001469b02bb128 [],
  draid_map.mk 205 256 0xfb2b742d05f54096 0x0000146789357a4b [],
  draid_map.mk 206 256 0x5879587e83e5dfcb 0x000014c437258b0d [],
  draid_map.mk 207 256 0x61b65616dd4d9288 0x000014d43b401a1e [],
  draid_map.mk 208 256 0x8c3722ddabd63083 0x0000150ec78643b7 [],
  draid_map.mk 209 256 0x75a0df47f4d66fd8 0x00001539a49cd0dc [],
  draid_map.mk 210 256 0x4160fa0f875155e9 0x00001570785bcbe9 [],
  draid_map.mk 211 256 0xabe7e685cbc9ce5c 0x0000159de43925eb [],
  draid_map.mk 212 256 0x8689a65aaa3c99c0 0x000015fc66ccb6b9 [],
  draid_map.mk 213 256 0xa802e731e8320896 0x00001621628872f5 [],
  draid_map.mk 214 256 0x9c2c6beb7a7b25bb 0x00001655fe9367fa [],
  draid_map.mk 215 256 0x6c2bff4eecf7e523 0x000016a67633f2dd [],
  draid_map.mk 216 256 0x633da96e9ccb7220 0x000016c1857ad660 [],
  draid_map.mk 217 256 0xed34dcf8d4fdc37d 0x0000171ae5c143cb [],
  draid_map.mk 218 256 0xce9e0e8470219fb9 0x0000175c46f535dc [],
  draid_map.mk 219 256 0x48e419f13839522f 0x000017511618b253 [],
  draid_map.mk 220 256 0xe83ce578a61a3e92 0x0000178efe345d42 [],
  draid_map.mk 221 256 0x792501128b8e7562 0x000017f6395d7838 [],
  draid_map.mk 222 256 0x3d3b033300746ffd 0x000017f9dede6cf7 [],
  draid_map.mk 223 256 0xaa42b54bd79b9b39 0x00001835031bc4e1 [],
  draid_map.mk 224 256 0xbe8d8bfee659c4ff 0x0000186ecee4caec [],
  draid_map.mk 225 256 0x0e4fd33344959bf5 0x0000188b770105b1 [],
  draid_map.mk 226 256 0xa6318818535bd977 0x000018bf36dba228 [],
  draid_map.mk 227 256 0x09a58d6ef4cd24a4 0x00001946e00c3d0e [],
  draid_map.mk 228 256 0xd5df92c1210a61e1 0x00001955f284187d [],
  draid_map.mk 229 256 0x2f9dad47ecbfb07f 0x000019b445a00aa2 [],
  draid_map.mk 230 256 0x50d1653470eb8009 0x000019e275ecc423 [],
  draid_map.mk 231 256 0x859b561d9909f1f5 0x00001a0985e6b6e6 [],
  draid_map.mk 232 256 0x6e4495e95ba570a6 0x00001a4c9ec980c5 [],
  draid_map.mk 233 256 0x104a5ae2c742cd87 0x00001a9a1f4de4f7 [],
  draid_map.mk 234 256 0xbf6e8f617885bb29 0x00001adc9d0df84d [],
  draid_map.mk 235 256 0xba9db9112d231b48 0x00001b05370c313e [],
  draid_map.mk 236 256 0xcc430d194996378a 0x00001b5f09eb6ae4 [],
  draid_map.mk 237 256 0x8a37e532dcb37264 0x00001ba88015fa57 [],
  draid_map.mk 238 256 0x137fc0b403b6691f 0x00001bc98a59844c [],
  draid_map.mk 239 256 0x4b52fd61f556ebf1 0x00001bb4446eae57 [],
  draid_map.mk 240 256 0xe151761a61bed245 0x00001bfc708585e4 [],
  draid_map.mk 241 256 0x18ad79678dcc175b 0x00001c497759b280 [],
  draid_map.mk 242 256 0x70d604fcd9499c33 0x00001ca489da0135 [],
  draid_map.mk 243 256 0x584678bd5bec7e6b 0x00001cce5fb12f23 [],
  draid_map.mk 244 256 0x3df107aa54b635b3 0x00001d013be32dd7 [],
  draid_map.mk 245 256 0xcc8377b324aa1922 0x00001d33f9a376d2 [],
  draid_map.mk 246 256 0xc189e45cb4aca673 0x00001d609af1a280 [],
  draid_map.mk 247 256 0xa2bf7a007477f3c5 0x00001d9fefa22ca8 [],
  draid_map.mk 248 256 0x8a9e55e3586eb6ab 0x00001de182ca01ce [],
  draid_map.mk 249 256 0x6d6feba1dcae9397 0x00001e37f9906fc5 [],
  draid_map.mk 250 256 0x889f6848d4489d14 0x00001ea6fc12e456 [],
  draid_map.mk 251 256 0x2126c3b4ee836dde 0x00001ea151a0e96e [],
  draid_map.mk 252 256 0xceec65ee5be40279 0x00001f08192ed5c1 [],
  draid_map.mk 253 256 0x6d69532520419418 0x00001f3c8e9b0b72 [],
  draid_map.mk 254 256 0x8c93161db4f0fd85 0x00001f79c5d08c45 [],
  draid_map.mk 255 256 0xacd9a3be765cb85d 0x00001fc35c2b6a2b []]

/-- One iteration state of `vdev_draid_lookup_map`'s search loop
(`for (int i = 0; i <= VDEV_DRAID_MAX_MAPS; i++)`), returning both the
result and the list of table indices the loop reads.  `oob` is the value
obtained by the (out-of-bounds) read of `draid_maps[VDEV_DRAID_MAX_MAPS]`. -/
def vdev_draid_lookup_map_loop (oob : draid_map) (children i : ℕ) :
    (Except ℕ (ℕ × ℕ × ℕ)) × List ℕ :=
  if i ≤ VDEV_DRAID_MAX_MAPS then
    let e := draid_maps.getD i oob
    if e.dm_children = children then
      (Except.ok (e.dm_seed, e.dm_checksum, e.dm_nperms), [i])
    else
      let r := vdev_draid_lookup_map_loop oob children (i + 1)
      (r.1, i :: r.2)
  else
    (Except.error ENOENT, [])
termination_by VDEV_DRAID_MAX_MAPS + 1 - i
decreasing_by simp only [VDEV_DRAID_MAX_MAPS] at *; omega

/-- `vdev_draid_lookup_map`: scan the frozen table for the row whose
`dm_children` matches, returning `(seed, checksum, nperms)` on success and
`ENOENT` when no row matches.  The second component records every table
index the loop reads. -/
def vdev_draid_lookup_map (oob : draid_map) (children : ℕ) :
    (Except ℕ (ℕ × ℕ × ℕ)) × List ℕ :=
  vdev_draid_lookup_map_loop oob children 0

/-- Modelled from the spec: the `fletcher4`-family 64-bit checksum over the
flat byte array (`fletcher_4_native_varsize`; its implementation is not part
of these sources).  Bytes are grouped into little-endian 32-bit words, any
trailing partial word is ignored, and the first fletcher-4 accumulator word
(`zc_word[0]`, the running sum modulo `2 ^ 64`) is returned. -/
def fletcher_4_le32 : List ℕ → List ℕ
  | b0 :: b1 :: b2 :: b3 :: rest =>
      (b0 + 256 * b1 + 65536 * b2 + 16777216 * b3) :: fletcher_4_le32 rest
  | _ => []

/-- Modelled from the spec: first 64-bit word of the fletcher-4 checksum. -/
def fletcher_4_word0 (bytes : List ℕ) : ℕ := (fletcher_4_le32 bytes).sum % w64

/-- The inner column loop of `check_map` over one row: walk the row values,
rejecting a value that is `≥ children` or whose tally differs from the row
index `i` (the single-pass duplicate sentinel), and bumping the tally of an
accepted value.  The tallies are `uint16_t`, hence the reduction mod `2^16`. -/
def check_map_row (children i : ℕ) (counts : List ℕ) : List ℕ → Option (List ℕ)
  | [] => some counts
  | v :: rest =>
      if children ≤ v ∨ counts.getD v 0 ≠ i then none
      else check_map_row children i (counts.set v ((counts.getD v 0 + 1) % 2 ^ 16)) rest

/-- Row `k` of a flat permutation array: `perms[(k*children) .. (k+1)*children)`. -/
def draid_row (perms : List ℕ) (children k : ℕ) : List ℕ :=
  (perms.drop (k * children)).take children

/-- The outer row loop of `check_map`: with `rem` rows left to process, the
current row index is `i` (the loop `for (i = 0; i < nperms; i++)` starts at
`rem = nperms`, `i = 0`, so `rem = nperms - i` throughout). -/
def check_map_rows (children : ℕ) (perms : List ℕ) :
    ℕ → ℕ → List ℕ → Option (List ℕ)
  | 0, _i, counts => some counts
  | rem + 1, i, counts =>
      match check_map_row children i counts (draid_row perms children i) with
      | none => none
      | some counts2 => check_map_rows children perms rem (i + 1) counts2

/-- `check_map`: verify the map is valid.  Every device index must appear
exactly once in every row (else `EINVAL`); when the map records a non-zero
checksum, the fletcher-4 64-bit checksum of the flat array must match it
(else `ECKSUM`).  Returns `0` on success, as in C. -/
def check_map (m : draid_map) : ℕ :=
  match check_map_rows m.dm_children m.dm_perms m.dm_nperms 0
      (List.replicate m.dm_children 0) with
  | none => EINVAL
  | some _ =>
      if m.dm_checksum ≠ 0 then
        if fletcher_4_word0 m.dm_perms ≠ m.dm_checksum then ECKSUM else 0
      else 0

/-- Swap of two positions of a list (the body of the Fisher-Yates loop). -/
def list_swap (l : List ℕ) (a b : ℕ) : List ℕ :=
  (l.set a (l.getD b 0)).set b (l.getD a 0)

/-- The Fisher-Yates inner loop of `vdev_draid_generate_map`:
`for (int j = children - 1; j > 0; j--) { k = rand % (j + 1); swap j k }`.
The PRNG `vdev_draid_rand` is external to these sources, so it is abstracted
as the stream `rand` of its successive values, indexed by a call counter `t`. -/
def fisher_yates (rand : ℕ → ℕ) : ℕ → ℕ → List ℕ → List ℕ × ℕ
  | t, 0, row => (row, t)
  | t, j + 1, row => fisher_yates rand (t + 1) j (list_swap row (j + 1) (rand t % (j + 2)))

/-- The row-generation loop of `vdev_draid_generate_map`: each row is the
Fisher-Yates shuffle of the previous one, starting from the identity row.
Returns the rows generated (in order) and the final PRNG call counter. -/
def generate_rows (rand : ℕ → ℕ) (children : ℕ) : ℕ → ℕ → List ℕ → List (List ℕ)
  | _t, 0, _ => []
  | t, n + 1, prev =>
      (fisher_yates rand t (children - 1) prev).1 ::
        generate_rows rand children (fisher_yates rand t (children - 1) prev).2 n
          (fisher_yates rand t (children - 1) prev).1

/-- The flat byte array produced by `vdev_draid_generate_map`'s generation
loop (before validation). -/
def generated_perms (rand : ℕ → ℕ) (children nperms : ℕ) : List ℕ :=
  (generate_rows rand children 0 nperms (List.range children)).flatten

/-- `vdev_draid_generate_map`: generate the permutation array from the seed
(abstracted as the PRNG stream `rand`) and validate it with `check_map`,
propagating `check_map`'s error. -/
def vdev_draid_generate_map (rand : ℕ → ℕ) (children map_seed checksum nperms : ℕ) :
    Except ℕ draid_map :=
  let m : draid_map := ⟨children, nperms, map_seed, checksum,
    generated_perms rand children nperms⟩
  let e := check_map m
  if e = 0 then Except.ok m else Except.error e

/-- `vdev_draid_config_t`: the per-vdev dRAID configuration. -/
structure vdev_draid_config where
  vdc_ndata : ℕ
  vdc_nparity : ℕ
  vdc_nspares : ℕ
  vdc_children : ℕ
  vdc_ngroups : ℕ
  vdc_map : draid_map
  vdc_groupwidth : ℕ
  vdc_ndisks : ℕ
  vdc_groupsz : ℕ
  vdc_devslicesz : ℕ

/-- Core of `vdev_draid_get_perm`, over the raw map data: for permutation
index `pindex`, `poff = pindex % (nperms * children)`, the base row starts
at flat offset `(poff / children) * children` and the rotation is
`iter = poff % children`. -/
def draid_get_perm (children nperms : ℕ) (perms : List ℕ) (pindex : ℕ) :
    List ℕ × ℕ :=
  let poff := pindex % (nperms * children)
  (perms.drop ((poff / children) * children), poff % children)

/-- Core of `vdev_draid_permute_id`: `(base[index] + iter) % children`. -/
def draid_permute_id (children : ℕ) (base : List ℕ) (iter index : ℕ) : ℕ :=
  (base.getD index 0 + iter) % children

/-- `vdev_draid_get_perm`: permutation row and rotation for `pindex`. -/
def vdev_draid_get_perm (vdc : vdev_draid_config) (pindex : ℕ) : List ℕ × ℕ :=
  draid_get_perm vdc.vdc_children vdc.vdc_map.dm_nperms vdc.vdc_map.dm_perms pindex

/-- `vdev_draid_permute_id`: effective device index of a column. -/
def vdev_draid_permute_id (vdc : vdev_draid_config) (base : List ℕ)
    (iter index : ℕ) : ℕ :=
  draid_permute_id vdc.vdc_children base iter index

/-- The per-I/O geometry of a `raidz_map_t` as built by
`vdev_draid_map_alloc`: stripe/populated/big column counts, skip-sector
accounting, and the `rc_size` of every column (`rm_col_size i`, in bytes,
meaningful for `i < rm_scols`). -/
structure raidz_map_geom where
  rm_cols : ℕ
  rm_scols : ℕ
  rm_bigcols : ℕ
  rm_skipstart : ℕ
  rm_firstdatacol : ℕ
  rm_nskip : ℕ
  rm_asize : ℕ
  rm_col_size : ℕ → ℕ

/-- The size arithmetic of `vdev_draid_map_alloc` (device indices and child
offsets are covered by `draid_permute_id` above; buffer layout by
`vdev_draid_map_alloc_write` below).  `io_size` is the zio's size in bytes;
all quantities are computed exactly as in the source. -/
def vdev_draid_map_alloc (vdc : vdev_draid_config) (ashift io_size : ℕ) :
    raidz_map_geom :=
  let psize := io_size >>> ashift
  let q := psize / vdc.vdc_ndata
  let r := psize - q * vdc.vdc_ndata
  let bc := if r = 0 then 0 else r + vdc.vdc_nparity
  let tot := psize + vdc.vdc_nparity * (q + if r = 0 then 0 else 1)
  let groupwidth := vdc.vdc_groupwidth
  let cols := if q = 0 then bc else groupwidth
  let colSize : ℕ → ℕ := fun i =>
    if cols ≤ i then 0
    else if i < bc then (q + 1) <<< ashift
    else q <<< ashift
  let asize := ∑ i ∈ Finset.range groupwidth, colSize i
  { rm_cols := cols
    rm_scols := groupwidth
    rm_bigcols := bc
    rm_skipstart := bc
    rm_firstdatacol := vdc.vdc_nparity
    rm_nskip := roundup tot groupwidth - tot
    rm_asize := roundup asize (groupwidth <<< ashift)
    rm_col_size := colSize }

/-- `vdev_draid_map_alloc_write` (plus the parity-buffer allocation loop of
`vdev_draid_map_alloc`): the size of the buffer backing column `c` after the
full-stripe write layout.  Parity columns (`c < rm_firstdatacol`) own linear
buffers of `rc_size` bytes; a big data column maps `rc_size` bytes of the
zio; a short data column gangs its `rc_size` bytes with one skip sector; an
empty data column is a single zero-filled skip sector. -/
def vdev_draid_map_alloc_write (rm : raidz_map_geom) (ashift : ℕ) (c : ℕ) : ℕ :=
  let skip_size := 1 <<< ashift
  if c < rm.rm_firstdatacol then rm.rm_col_size c
  else if rm.rm_skipstart = 0 ∨ c < rm.rm_skipstart then rm.rm_col_size c
  else if c < rm.rm_cols then rm.rm_col_size c + skip_size
  else skip_size

/-- `vdev_draid_asize`: psize rounded up to a full group width, computed
with `uint64_t` arithmetic (`rows = (psize - 1) / (ndata << ashift) + 1;
asize = (rows * groupwidth) << ashift`). -/
def vdev_draid_asize (vdc : vdev_draid_config) (ashift psize : ℕ) : ℕ :=
  let d := (vdc.vdc_ndata <<< ashift) % w64
  let rows := ((psize + (w64 - 1)) % w64 / d + 1) % w64
  ((rows * vdc.vdc_groupwidth) <<< ashift) % w64

/-- `vdev_draid_asize_to_psize`: `(asize / groupwidth) * ndata`. -/
def vdev_draid_asize_to_psize (vdc : vdev_draid_config) (asize : ℕ) : ℕ :=
  ((asize / vdc.vdc_groupwidth) * vdc.vdc_ndata) % w64

/-- The child-verification loop of `vdev_draid_open`: walk the children's
`vdev_open_error` values, and as soon as the running count of failed opens
exceeds `nparity`, fail with `ENXIO` and `vs_aux = VDEV_AUX_NO_REPLICAS`.
`none` means the loop completes (the open proceeds). -/
def vdev_draid_open_verify_loop (nparity : ℕ) : List ℕ → ℕ → Option (ℕ × ℕ)
  | [], _ => none
  | e :: rest, open_errors =>
      if e ≠ 0 then
        if nparity < open_errors + 1 then some ( ENXIO, VDEV_AUX_NO_REPLICAS)
        else vdev_draid_open_verify_loop nparity rest (open_errors + 1)
      else vdev_draid_open_verify_loop nparity rest open_errors

/-- The child-verification step of `vdev_draid_open`, started with
`open_errors = 0` as in the source. -/
def vdev_draid_open_verify (child_open_errors : List ℕ) (nparity : ℕ) :
    Option (ℕ × ℕ) :=
  vdev_draid_open_verify_loop nparity child_open_errors 0

/-- The per-child data consumed by `vdev_draid_calculate_asize`. -/
structure draid_child_caps where
  vdev_asize : ℕ
  vdev_max_asize : ℕ
  vdev_ashift : ℕ
  is_distributed_spare : Bool
  deriving Repr, DecidableEq

/-- `MIN(a - 1, b - 1) + 1` in `uint64_t` arithmetic, for `a, b < 2^64`:
the accumulation step of `vdev_draid_calculate_asize`. -/
def umin_m1p1 (a b : ℕ) : ℕ :=
  (min ((a + (w64 - 1)) % w64) ((b + (w64 - 1)) % w64) + 1) % w64

/-- `vdev_draid_calculate_asize`: fold over the children, skipping
distributed spares; `asize` and `max_asize` start at 0 and are accumulated
with `MIN(acc - 1, child - 1) + 1` (relying on `uint64_t` wraparound of
`0 - 1`), `ashift` with `MAX`.  Returns `(asize, max_asize, ashift)`. -/
def vdev_draid_calculate_asize (children : List draid_child_caps) : ℕ × ℕ × ℕ :=
  children.foldl
    (fun acc cvd =>
      if cvd.is_distributed_spare then acc
      else (umin_m1p1 acc.1 cvd.vdev_asize,
            umin_m1p1 acc.2.1 cvd.vdev_max_asize,
            max acc.2.2 cvd.vdev_ashift))
    (0, 0, 0)

/-- Modelled from the spec: the size of the label-reserved region at the
front of a leaf vdev (`VDEV_LABEL_START_SIZE`; defined in `vdev_impl.h`,
which is not part of these sources): two labels plus the boot block. -/
def VDEV_LABEL_START_SIZE : ℕ := 4194304

/-- Modelled from the spec: the size of the label-reserved region at the
end of a leaf vdev (`VDEV_LABEL_END_SIZE`, two labels; from `vdev_impl.h`,
not part of these sources). -/
def VDEV_LABEL_END_SIZE : ℕ := 524288

/-- Modelled from the spec: `VDEV_OFFSET_IS_LABEL` (from `vdev_impl.h`, not
part of these sources) — an offset falls in the first or last
label-reserved region of the device. -/
def vdev_offset_is_label (psize off : ℕ) : Bool :=
  off < VDEV_LABEL_START_SIZE ∨ psize - VDEV_LABEL_END_SIZE ≤ off

/-- The ioctl command `DKIOCFLUSHWRITECACHE` (distinct from all others). -/
def DKIOCFLUSHWRITECACHE : ℕ := 25

/-- The zio types of the I/O pipeline. -/
inductive zio_type where
  | null
  | read
  | write
  | free
  | claimz
  | ioctl
  | trim
  deriving Repr, DecidableEq

/-- The vdev tree seen by a distributed spare: a real leaf child (with its
trim/readable/writeable capabilities), or a (possibly nested) distributed
spare carrying its open state, its virtual `vdev_psize`, its spare id and
its parent top-level dRAID's `children`, `nperms`, `devslicesz`, flat
permutation array and child list.  `opened = false` models a closed spare
(`vdev_tsd == NULL`). -/
inductive dvdev where
  | real (hasTrim readable writeable : Bool) : dvdev
  | spare (opened : Bool) (psize spare_id nchildren nperms devslicesz : ℕ)
      (perms : List ℕ) (children : List dvdev) : dvdev

/-- `vdev_readable` for the resolved child (only ever applied to real
leaves; for a spare it mirrors the open state). -/
def dvdev.readable_b : dvdev → Bool
  | .real _ r _ => r
  | .spare o _ _ _ _ _ _ _ => o

/-- `vdev_writeable` for the resolved child. -/
def dvdev.writeable_b : dvdev → Bool
  | .real _ _ w => w
  | .spare o _ _ _ _ _ _ _ => o

/-- `vdev_has_trim` for the resolved child. -/
def dvdev.has_trim_b : dvdev → Bool
  | .real t _ _ => t
  | .spare _ _ _ _ _ _ _ _ => false

/-- `vdev_draid_spare_get_child`: resolve a physical offset of a
distributed spare to the concrete child that stores it.  `NULL` results are
`none`: closed spare, or offset beyond `psize - (LABEL_START + LABEL_END)`.
The effective child is `permute_id(base, iter, (children - 1) - spare_id)`
for permutation `physical_offset / devslicesz`; if the resolved child is
itself a distributed spare the lookup recurses (bounded here by `fuel`,
since the C recursion is bounded only by the pool's structure; an
out-of-bounds child index — impossible in a valid pool — resolves to a
dead leaf). -/
def vdev_draid_spare_get_child : ℕ → dvdev → ℕ → Option dvdev
  | _, .real _ _ _, _ => none
  | 0, .spare _ _ _ _ _ _ _ _, _ => none
  | fuel + 1, .spare opened psize spare_id nchildren nperms devslicesz perms children,
      physical_offset =>
    if opened = false ∨
        psize - (VDEV_LABEL_START_SIZE + VDEV_LABEL_END_SIZE) ≤ physical_offset then
      none
    else
      let perm := physical_offset / devslicesz
      let bi := draid_get_perm nchildren nperms perms perm
      let cid := draid_permute_id nchildren bi.1 bi.2 ((nchildren - 1) - spare_id)
      let cvd := children.getD cid (.real false false false)
      match cvd with
      | .spare o p s n np d pe ch =>
          vdev_draid_spare_get_child fuel (.spare o p s n np d pe ch) physical_offset
      | .real t r w => some (.real t r w)

/-- The zio state consumed by the distributed-spare I/O path. -/
structure zio_model where
  io_type : zio_type
  io_cmd : ℕ
  io_offset : ℕ
  io_size : ℕ
  io_flag_probe : Bool
  io_flag_config_writer : Bool
  io_data : List ℕ

/-- Result of `vdev_draid_spare_io_start`: the error stored in
`zio->io_error`, the child I/Os issued (`(target child, child offset)`),
and the zio's data buffer when the zio completes (the source never writes
`io_abd` itself). -/
structure spare_io_result where
  io_error : ℕ
  child_ios : List (dvdev × ℕ)
  io_data : List ℕ

/-- `vdev_draid_spare_ioctl`: only cache flushes are supported, anything
else is `ENOTSUP`.  The flush loop iterates `vd->vdev_children` of
`zio->io_vd` — the distributed spare itself, which is a leaf vdev
(`vdev_draid_spare_ops` has `vdev_op_leaf = B_TRUE`) and so has zero
children of its own — hence it executes no iterations: the flush completes
with error 0 and no child I/O is issued. -/
def vdev_draid_spare_ioctl (zio : zio_model) : spare_io_result :=
  if zio.io_cmd = DKIOCFLUSHWRITECACHE then
    ⟨0, [], zio.io_data⟩
  else
    ⟨ENOTSUP, [], zio.io_data⟩

/-- `vdev_draid_spare_io_start`: dispatch one zio on a distributed spare.
Label-range reads succeed (buffer untouched) only for probe I/Os and
label-range writes only for probe or config-writer I/Os; all other
label-range reads/writes fail with `EIO` and issue no child I/O.  Non-label
reads/writes and trims resolve the child with
`vdev_draid_spare_get_child` at `io_offset - VDEV_LABEL_START_SIZE`,
failing with `ENXIO` when it is missing, unwritable/unreadable, or (for
trim) lacks trim support.  Unknown zio types fail with `ENOTSUP`. -/
def vdev_draid_spare_io_start (fuel : ℕ) (vd : dvdev) (zio : zio_model) :
    spare_io_result :=
  match vd with
  | .real _ _ _ => ⟨ ENXIO, [], zio.io_data⟩
  | .spare opened psize spare_id nchildren nperms devslicesz perms children =>
    let offset := zio.io_offset - VDEV_LABEL_START_SIZE
    if opened = false then ⟨ ENXIO, [], zio.io_data⟩
    else
      match zio.io_type with
      | .ioctl => vdev_draid_spare_ioctl zio
      | .write =>
          if vdev_offset_is_label psize zio.io_offset then
            if zio.io_flag_probe ∨ zio.io_flag_config_writer then ⟨0, [], zio.io_data⟩
            else ⟨ EIO, [], zio.io_data⟩
          else
            match vdev_draid_spare_get_child fuel
                (.spare opened psize spare_id nchildren nperms devslicesz perms children)
                offset with
            | none => ⟨ ENXIO, [], zio.io_data⟩
            | some cvd =>
                if cvd.writeable_b then ⟨0, [(cvd, offset)], zio.io_data⟩
                else ⟨ ENXIO, [], zio.io_data⟩
      | .read =>
          if vdev_offset_is_label psize zio.io_offset then
            if zio.io_flag_probe then ⟨0, [], zio.io_data⟩
            else ⟨ EIO, [], zio.io_data⟩
          else
            match vdev_draid_spare_get_child fuel
                (.spare opened psize spare_id nchildren nperms devslicesz perms children)
                offset with
            | none => ⟨ ENXIO, [], zio.io_data⟩
            | some cvd =>
                if cvd.readable_b then ⟨0, [(cvd, offset)], zio.io_data⟩
                else ⟨ ENXIO, [], zio.io_data⟩
      | .trim =>
          match vdev_draid_spare_get_child fuel
              (.spare opened psize spare_id nchildren nperms devslicesz perms children)
              offset with
          | none => ⟨ ENXIO, [], zio.io_data⟩
          | some cvd =>
              if cvd.has_trim_b then ⟨0, [(cvd, offset)], zio.io_data⟩
              else ⟨ ENXIO, [], zio.io_data⟩
      | _ => ⟨ENOTSUP, [], zio.io_data⟩

/-- Decimal digit characters of `n`, most significant first, with `0`
rendered as `"0"`: the output of `%llu` in `snprintf`. -/
def nat_decimal_chars (n : ℕ) : List Char :=
  if n = 0 then ['0']
  else (Nat.digits 10 n).reverse.map fun d => Char.ofNat (48 + d)

/-- `vdev_draid_spare_name`: format the spare identity
`draid<parity>-<vdev_id>-<spare_id>` (argument order as in the source:
spare id, parity, top-level vdev id; the buffer is assumed large enough, so
`snprintf` truncation does not occur). -/
def vdev_draid_spare_name (spare_id parity vdev_id : ℕ) : String :=
  String.mk (('d' :: 'r' :: 'a' :: 'i' :: 'd' :: nat_decimal_chars parity)
    ++ '-' :: nat_decimal_chars vdev_id ++ '-' :: nat_decimal_chars spare_id)

/-- Match a literal prefix, as `sscanf` matches literal format characters. -/
def scan_literal : List Char → List Char → Option (List Char)
  | [], s => some s
  | _ :: _, [] => none
  | c :: ps, d :: s => if d = c then scan_literal ps s else none

/-- Digit accumulation of `%llu` once at least one digit was seen. -/
def scan_digits (acc : ℕ) : List Char → ℕ × List Char
  | [] => (acc, [])
  | c :: s =>
      if c.isDigit then scan_digits (acc * 10 + (c.toNat - 48)) s
      else (acc, c :: s)

/-- White space as skipped by `sscanf` conversions. -/
def is_space_char (c : Char) : Bool := c = ' ' ∨ c = '\t' ∨ c = '\n'

/-- The numeric conversion of `strtoull` on an already-accumulated digit
value: clamped to `ULLONG_MAX` on overflow, and negated in `uint64`
arithmetic when the field carried a `-` sign. -/
def strtoull_conv (neg : Bool) (v : ℕ) : ℕ :=
  if neg then (w64 - min v (w64 - 1)) % w64 else min v (w64 - 1)

/-- The digit part of a `%llu` field: at least one decimal digit, converted
by `strtoull_conv`. -/
def scan_ull_digits (neg : Bool) : List Char → Option (ℕ × List Char)
  | [] => none
  | c :: rest =>
      if c.isDigit then
        some (strtoull_conv neg (scan_digits (c.toNat - 48) rest).1,
          (scan_digits (c.toNat - 48) rest).2)
      else none

/-- The `%llu` conversion of `sscanf`: skip leading white space, then
convert as `strtoull` does — an optional `+` or `-` sign followed by at
least one decimal digit, the value clamped to `ULLONG_MAX` on overflow and
negated modulo `2^64` for a `-` sign. -/
def scan_ull (s : List Char) : Option (ℕ × List Char) :=
  match s.dropWhile is_space_char with
  | [] => none
  | c :: rest =>
      if c = '-' then scan_ull_digits true rest
      else if c = '+' then scan_ull_digits false rest
      else scan_ull_digits false (c :: rest)

/-- `vdev_draid_spare_values`: parse `draid%llu-%llu-%llu` out of a spare
name; unless all three fields match, fail with `EINVAL`.  On success the
fields are `(spare_id, parity, vdev_id)` (the source's out-parameter
order), with the fields read left to right as parity, vdev id, spare id. -/
def vdev_draid_spare_values (name : String) : Except ℕ (ℕ × ℕ × ℕ) :=
  match scan_literal ['d', 'r', 'a', 'i', 'd'] name.toList with
  | none => Except.error EINVAL
  | some s1 =>
    match scan_ull s1 with
    | none => Except.error EINVAL
    | some (parity, s2) =>
      match scan_literal ['-'] s2 with
      | none => Except.error EINVAL
      | some s3 =>
        match scan_ull s3 with
        | none => Except.error EINVAL
        | some (vdev_id, s4) =>
          match scan_literal ['-'] s4 with
          | none => Except.error EINVAL
          | some s5 =>
            match scan_ull s5 with
            | none => Except.error EINVAL
            | some (spare_id, _) => Except.ok (spare_id, parity, vdev_id)

lemma vdev_draid_open_verify_loop_spec (np : ℕ) :
    ∀ (errs : List ℕ) (cnt : ℕ), cnt ≤ np →
      vdev_draid_open_verify_loop np errs cnt =
        if np < cnt + errs.countP (fun e => e != 0) then
          some ( ENXIO, VDEV_AUX_NO_REPLICAS)
        else none := by
  intro errs
  induction errs with
  | nil =>
      intro cnt hcnt
      have h : ¬ np < cnt := by omega
      simp [vdev_draid_open_verify_loop, h]
  | cons e rest ih =>
      intro cnt hcnt
      rw [vdev_draid_open_verify_loop]
      by_cases he : e = 0
      · subst he
        simp only [ne_eq, not_true_eq_false, if_false, ih cnt hcnt, List.countP_cons]
        simp
      · rw [if_pos he, List.countP_cons]
        have hpe : (e != 0) = true := by simpa using he
        by_cases hover : np < cnt + 1
        · rw [if_pos hover, if_pos (by simp [hpe]; omega)]
        · rw [if_neg hover, ih (cnt + 1) (by omega)]
          simp only [hpe, if_true]
          split_ifs with h1 h2 <;> first | rfl | omega

/-- C6: on open of a top-level dRAID vdev, the child-verification loop
tolerates up to `nparity` children whose open failed, and returns `ENXIO`
with `vs_aux = VDEV_AUX_NO_REPLICAS` exactly when strictly more than
`nparity` children report a non-zero open error. -/
theorem vdev_draid_open_verify_spec (child_open_errors : List ℕ) (nparity : ℕ) :
    vdev_draid_open_verify child_open_errors nparity =
      if nparity < child_open_errors.countP (fun e => e != 0) then
        some ( ENXIO, VDEV_AUX_NO_REPLICAS)
      else none := by
  have h := vdev_draid_open_verify_loop_spec nparity child_open_errors 0 (Nat.zero_le _)
  simpa [vdev_draid_open_verify] using h

lemma umin_m1p1_zero_left {b : ℕ} (hb0 : 0 < b) (hb : b < w64) :
    umin_m1p1 0 b = b := by
  have h1 : (0 + (w64 - 1)) % w64 = w64 - 1 := by
    have : w64 - 1 < w64 := by simp [w64]
    simp [Nat.mod_eq_of_lt this]
  have h2 : (b + (w64 - 1)) % w64 = b - 1 := by
    have hw : 0 < w64 := by simp [w64]
    have : b + (w64 - 1) = (b - 1) + 1 * w64 := by omega
    rw [this, Nat.add_mul_mod_self_right]
    exact Nat.mod_eq_of_lt (by omega)
  have h3 : min (w64 - 1) (b - 1) = b - 1 := by
    apply min_eq_right
    omega
  rw [umin_m1p1, h1, h2, h3]
  have : b - 1 + 1 = b := by omega
  rw [this]
  exact Nat.mod_eq_of_lt hb

lemma umin_m1p1_pos {a b : ℕ} (ha0 : 0 < a) (ha : a < w64) (hb0 : 0 < b)
    (hb : b < w64) : umin_m1p1 a b = min a b := by
  have hw : 0 < w64 := by simp [w64]
  have h1 : (a + (w64 - 1)) % w64 = a - 1 := by
    have : a + (w64 - 1) = (a - 1) + 1 * w64 := by omega
    rw [this, Nat.add_mul_mod_self_right]
    exact Nat.mod_eq_of_lt (by omega)
  have h2 : (b + (w64 - 1)) % w64 = b - 1 := by
    have : b + (w64 - 1) = (b - 1) + 1 * w64 := by omega
    rw [this, Nat.add_mul_mod_self_right]
    exact Nat.mod_eq_of_lt (by omega)
  rw [umin_m1p1, h1, h2]
  have h3 : min (a - 1) (b - 1) + 1 = min a b := by omega
  rw [h3]
  exact Nat.mod_eq_of_lt (by omega)

/-- The scalar accumulation semantics of the `MIN(x-1, y-1)+1` dance when
every input is positive: `0` behaves as plus infinity. -/
def minAcc (a : ℕ) (xs : List ℕ) : ℕ :=
  xs.foldl (fun p x => if p = 0 then x else min p x) a

lemma minAcc_nil (a : ℕ) : minAcc a [] = a := rfl

lemma minAcc_cons (a x : ℕ) (xs : List ℕ) :
    minAcc a (x :: xs) = minAcc (if a = 0 then x else min a x) xs := rfl

lemma minAcc_pos_spec (xs : List ℕ) :
    ∀ a, 0 < a → (∀ x ∈ xs, 0 < x) →
      (minAcc a xs = a ∨ minAcc a xs ∈ xs) ∧ minAcc a xs ≤ a ∧
        ∀ x ∈ xs, minAcc a xs ≤ x := by
  induction xs with
  | nil => intro a ha _; simp [minAcc_nil]
  | cons x xs ih =>
      intro a ha hx
      have hxpos : 0 < x := hx x (by simp)
      have hstep : (if a = 0 then x else min a x) = min a x := by
        have : a ≠ 0 := by omega
        simp [this]
      rw [minAcc_cons, hstep]
      have hmin : 0 < min a x := by omega
      obtain ⟨hmem, hle, hbound⟩ := ih (min a x) hmin (fun y hy => hx y (by simp [hy]))
      refine ⟨?_, ?_, ?_⟩
      · rcases hmem with h | h
        · rcases Nat.le_total a x with hax | hax
          · left; rw [h]; exact min_eq_left hax
          · right; simp only [List.mem_cons]; left; rw [h]; exact min_eq_right hax
        · right; simp [h]
      · calc minAcc (min a x) xs ≤ min a x := hle
          _ ≤ a := min_le_left _ _
      · intro y hy
        rcases List.mem_cons.mp hy with h | h
        · subst h
          calc minAcc (min a y) xs ≤ min a y := hle
            _ ≤ y := min_le_right _ _
        · exact hbound y h

lemma minAcc_zero_spec (xs : List ℕ) (hne : xs ≠ []) (hx : ∀ x ∈ xs, 0 < x) :
    minAcc 0 xs ∈ xs ∧ ∀ x ∈ xs, minAcc 0 xs ≤ x := by
  match xs, hne with
  | x :: xs, _ =>
      have hxpos : 0 < x := hx x (by simp)
      rw [minAcc_cons]
      simp only [if_pos rfl]
      obtain ⟨hmem, _hle, hbound⟩ :=
        minAcc_pos_spec xs x hxpos (fun y hy => hx y (by simp [hy]))
      refine ⟨?_, ?_⟩
      · rcases hmem with h | h
        · simp [h]
        · simp [h]
      · intro y hy
        rcases List.mem_cons.mp hy with h | h
        · subst h; exact le_trans (minAcc_pos_spec xs y hxpos
            (fun z hz => hx z (by simp [hz]))).2.1 (le_refl y)
        · exact hbound y h

lemma foldl_max_spec (xs : List ℕ) :
    ∀ a, (xs.foldl max a = a ∨ xs.foldl max a ∈ xs) ∧ a ≤ xs.foldl max a ∧
      ∀ x ∈ xs, x ≤ xs.foldl max a := by
  induction xs with
  | nil => intro a; simp
  | cons x xs ih =>
      intro a
      obtain ⟨hmem, hle, hbound⟩ := ih (max a x)
      simp only [List.foldl_cons]
      refine ⟨?_, ?_, ?_⟩
      · rcases hmem with h | h
        · rcases Nat.le_total a x with hax | hax
          · right; rw [h]; simp [max_eq_right hax]
          · left; rw [h]; exact max_eq_left hax
        · right; simp [h]
      · exact le_trans (le_max_left _ _) hle
      · intro y hy
        rcases List.mem_cons.mp hy with h | h
        · subst h; exact le_trans (le_max_right _ _) hle
        · exact hbound y h

lemma vdev_draid_calculate_asize_fold (l : List draid_child_caps) :
    ∀ A M S : ℕ,
      (∀ c ∈ l, c.is_distributed_spare = false →
        0 < c.vdev_asize ∧ c.vdev_asize < w64 ∧
        0 < c.vdev_max_asize ∧ c.vdev_max_asize < w64) →
      (A = 0 ∨ (0 < A ∧ A < w64)) → (M = 0 ∨ (0 < M ∧ M < w64)) →
      l.foldl
        (fun acc cvd =>
          if cvd.is_distributed_spare then acc
          else (umin_m1p1 acc.1 cvd.vdev_asize,
                umin_m1p1 acc.2.1 cvd.vdev_max_asize,
                max acc.2.2 cvd.vdev_ashift))
        (A, M, S) =
      (minAcc A ((l.filter fun c => !c.is_distributed_spare).map
          fun c => c.vdev_asize),
       minAcc M ((l.filter fun c => !c.is_distributed_spare).map
          fun c => c.vdev_max_asize),
       ((l.filter fun c => !c.is_distributed_spare).map
          fun c => c.vdev_ashift).foldl max S) := by
  induction l with
  | nil => intro A M S _ _ _; simp [minAcc_nil]
  | cons c rest ih =>
      intro A M S hpos hA hM
      by_cases hsp : c.is_distributed_spare
      · have hfilter :
            (c :: rest).filter (fun c => !c.is_distributed_spare) =
              rest.filter (fun c => !c.is_distributed_spare) := by
          simp [List.filter_cons, hsp]
        rw [List.foldl_cons, if_pos hsp, hfilter]
        exact ih A M S (fun d hd => hpos d (by simp [hd])) hA hM
      · have hsp' : c.is_distributed_spare = false := by
          simpa using hsp
        obtain ⟨ha0, haw, hm0, hmw⟩ := hpos c (by simp) hsp'
        have hfilter :
            (c :: rest).filter (fun c => !c.is_distributed_spare) =
              c :: rest.filter (fun c => !c.is_distributed_spare) := by
          simp [List.filter_cons, hsp']
        rw [List.foldl_cons, if_neg hsp, hfilter]
        have hstepA : umin_m1p1 A c.vdev_asize =
            if A = 0 then c.vdev_asize else min A c.vdev_asize := by
          rcases hA with h | ⟨h1, h2⟩
          · subst h; simp [umin_m1p1_zero_left ha0 haw]
          · have : A ≠ 0 := by omega
            simp [this, umin_m1p1_pos h1 h2 ha0 haw]
        have hstepM : umin_m1p1 M c.vdev_max_asize =
            if M = 0 then c.vdev_max_asize else min M c.vdev_max_asize := by
          rcases hM with h | ⟨h1, h2⟩
          · subst h; simp [umin_m1p1_zero_left hm0 hmw]
          · have : M ≠ 0 := by omega
            simp [this, umin_m1p1_pos h1 h2 hm0 hmw]
        have hA' : (if A = 0 then c.vdev_asize else min A c.vdev_asize) = 0 ∨
            (0 < (if A = 0 then c.vdev_asize else min A c.vdev_asize) ∧
             (if A = 0 then c.vdev_asize else min A c.vdev_asize) < w64) := by
          right
          rcases hA with h | ⟨h1, h2⟩
          · simp [h]; omega
          · have : A ≠ 0 := by omega
            simp [this]; omega
        have hM' : (if M = 0 then c.vdev_max_asize else min M c.vdev_max_asize) = 0 ∨
            (0 < (if M = 0 then c.vdev_max_asize else min M c.vdev_max_asize) ∧
             (if M = 0 then c.vdev_max_asize else min M c.vdev_max_asize) < w64) := by
          right
          rcases hM with h | ⟨h1, h2⟩
          · simp [h]; omega
          · have : M ≠ 0 := by omega
            simp [this]; omega
        rw [List.map_cons, List.map_cons, List.map_cons, minAcc_cons, minAcc_cons,
          List.foldl_cons]
        simp only [hstepA, hstepM]
        exact ih _ _ _ (fun d hd => hpos d (by simp [hd])) hA' hM'

/-- C10 counterexample: with a non-spare child of `vdev_asize = 0` (e.g. a
child whose open failed) followed by one of asize 5, the accumulated asize
is 5, not the minimum 0: the `0 - 1` wraparound makes a zero-sized child
act as plus infinity, not only in the initial accumulator. -/
theorem vdev_draid_calculate_asize_zero_child_cex :
    (vdev_draid_calculate_asize
        [⟨0, 0, 0, false⟩, ⟨5, 5, 0, false⟩]).1 = 5 ∧
    (draid_child_caps.mk 0 0 0 false) ∈
      ([⟨0, 0, 0, false⟩, ⟨5, 5, 0, false⟩] : List draid_child_caps) ∧
    ¬ (∀ c ∈ ([⟨0, 0, 0, false⟩, ⟨5, 5, 0, false⟩] : List draid_child_caps),
        c.is_distributed_spare = false →
        (vdev_draid_calculate_asize
            [⟨0, 0, 0, false⟩, ⟨5, 5, 0, false⟩]).1 ≤ c.vdev_asize) := by
  refine ⟨by decide, by decide, ?_⟩
  intro h
  have := h ⟨0, 0, 0, false⟩ (by decide) (by decide)
  revert this
  decide

/-- C10 (amended): for a dRAID vdev with at least one non-spare child, when
every non-spare child has a non-zero (and `uint64`-representable) `asize`
and `max_asize`, `vdev_draid_calculate_asize` returns the minimum asize and
max_asize and the maximum ashift over the non-spare children; the initial
`0` accumulators act as plus infinity through the `MIN(x - 1, y - 1) + 1`
`uint64_t` wraparound (so the first child always wins), and a zero-sized
child is likewise skipped rather than becoming the minimum. -/
theorem vdev_draid_calculate_asize_min_spec (children : List draid_child_caps)
    (hpos : ∀ c ∈ children, c.is_distributed_spare = false →
      0 < c.vdev_asize ∧ c.vdev_asize < w64 ∧
      0 < c.vdev_max_asize ∧ c.vdev_max_asize < w64)
    (hne : ∃ c ∈ children, c.is_distributed_spare = false) :
    ((vdev_draid_calculate_asize children).1 ∈
        ((children.filter fun c => !c.is_distributed_spare).map
          fun c => c.vdev_asize) ∧
      ∀ c ∈ children.filter (fun c => !c.is_distributed_spare),
        (vdev_draid_calculate_asize children).1 ≤ c.vdev_asize) ∧
    ((vdev_draid_calculate_asize children).2.1 ∈
        ((children.filter fun c => !c.is_distributed_spare).map
          fun c => c.vdev_max_asize) ∧
      ∀ c ∈ children.filter (fun c => !c.is_distributed_spare),
        (vdev_draid_calculate_asize children).2.1 ≤ c.vdev_max_asize) ∧
    ((vdev_draid_calculate_asize children).2.2 ∈
        ((children.filter fun c => !c.is_distributed_spare).map
          fun c => c.vdev_ashift) ∧
      ∀ c ∈ children.filter (fun c => !c.is_distributed_spare),
        c.vdev_ashift ≤ (vdev_draid_calculate_asize children).2.2) := by
  have hfoldeq := vdev_draid_calculate_asize_fold children 0 0 0 hpos
    (Or.inl rfl) (Or.inl rfl)
  have hcalc : vdev_draid_calculate_asize children =
      (minAcc 0 ((children.filter fun c => !c.is_distributed_spare).map
          fun c => c.vdev_asize),
       minAcc 0 ((children.filter fun c => !c.is_distributed_spare).map
          fun c => c.vdev_max_asize),
       ((children.filter fun c => !c.is_distributed_spare).map
          fun c => c.vdev_ashift).foldl max 0) := by
    rw [vdev_draid_calculate_asize]
    exact hfoldeq
  obtain ⟨c0, hc0, hc0sp⟩ := hne
  have hc0f : c0 ∈ children.filter (fun c => !c.is_distributed_spare) := by
    simp [List.mem_filter, hc0, hc0sp]
  have hmemf : ∀ {f : draid_child_caps → ℕ},
      f c0 ∈ (children.filter fun c => !c.is_distributed_spare).map f := by
    intro f
    exact List.mem_map.mpr ⟨c0, hc0f, rfl⟩
  have hposf : ∀ c ∈ children.filter (fun c => !c.is_distributed_spare),
      0 < c.vdev_asize ∧ c.vdev_asize < w64 ∧
        0 < c.vdev_max_asize ∧ c.vdev_max_asize < w64 := by
    intro c hc
    have hc' := List.mem_filter.mp hc
    exact hpos c hc'.1 (by simpa using hc'.2)
  refine ⟨?_, ?_, ?_⟩
  · have hspec := minAcc_zero_spec
      ((children.filter fun c => !c.is_distributed_spare).map fun c => c.vdev_asize)
      (by
        intro h
        have hm := @hmemf fun c => c.vdev_asize
        rw [h] at hm
        exact absurd hm (List.not_mem_nil _))
      (by
        intro x hx
        obtain ⟨c, hc, hfc⟩ := List.mem_map.mp hx
        have := (hposf c hc).1
        omega)
    rw [hcalc]
    refine ⟨hspec.1, ?_⟩
    intro c hc
    exact hspec.2 c.vdev_asize (List.mem_map.mpr ⟨c, hc, rfl⟩)
  · have hspec := minAcc_zero_spec
      ((children.filter fun c => !c.is_distributed_spare).map
        fun c => c.vdev_max_asize)
      (by
        intro h
        have hm := @hmemf fun c => c.vdev_max_asize
        rw [h] at hm
        exact absurd hm (List.not_mem_nil _))
      (by
        intro x hx
        obtain ⟨c, hc, hfc⟩ := List.mem_map.mp hx
        have := (hposf c hc).2.2.1
        omega)
    rw [hcalc]
    refine ⟨hspec.1, ?_⟩
    intro c hc
    exact hspec.2 c.vdev_max_asize (List.mem_map.mpr ⟨c, hc, rfl⟩)
  · have hspec := foldl_max_spec
      ((children.filter fun c => !c.is_distributed_spare).map
        fun c => c.vdev_ashift) 0
    rw [hcalc]
    refine ⟨?_, ?_⟩
    · rcases hspec.1 with h | h
      · rw [h]
        have hc0m := @hmemf fun c => c.vdev_ashift
        have hzero : c0.vdev_ashift ≤ 0 := by
          have := hspec.2.2 c0.vdev_ashift hc0m
          omega
        have : c0.vdev_ashift = 0 := by omega
        rw [← this]
        exact hc0m
      · exact h
    · intro c hc
      exact hspec.2.2 c.vdev_ashift (List.mem_map.mpr ⟨c, hc, rfl⟩)

/-- C10 witness: the amended theorem at a concrete child list. -/
theorem vdev_draid_calculate_asize_min_witness :
    ((vdev_draid_calculate_asize
        [⟨10, 20, 9, false⟩, ⟨7, 30, 12, false⟩, ⟨1, 1, 99, true⟩]).1 ∈
        ((([⟨10, 20, 9, false⟩, ⟨7, 30, 12, false⟩, ⟨1, 1, 99, true⟩] :
            List draid_child_caps).filter
              fun c => !c.is_distributed_spare).map fun c => c.vdev_asize) ∧
      ∀ c ∈ ([⟨10, 20, 9, false⟩, ⟨7, 30, 12, false⟩, ⟨1, 1, 99, true⟩] :
          List draid_child_caps).filter (fun c => !c.is_distributed_spare),
        (vdev_draid_calculate_asize
          [⟨10, 20, 9, false⟩, ⟨7, 30, 12, false⟩, ⟨1, 1, 99, true⟩]).1 ≤
          c.vdev_asize) ∧
    ((vdev_draid_calculate_asize
        [⟨10, 20, 9, false⟩, ⟨7, 30, 12, false⟩, ⟨1, 1, 99, true⟩]).2.1 ∈
        ((([⟨10, 20, 9, false⟩, ⟨7, 30, 12, false⟩, ⟨1, 1, 99, true⟩] :
            List draid_child_caps).filter
              fun c => !c.is_distributed_spare).map fun c => c.vdev_max_asize) ∧
      ∀ c ∈ ([⟨10, 20, 9, false⟩, ⟨7, 30, 12, false⟩, ⟨1, 1, 99, true⟩] :
          List draid_child_caps).filter (fun c => !c.is_distributed_spare),
        (vdev_draid_calculate_asize
          [⟨10, 20, 9, false⟩, ⟨7, 30, 12, false⟩, ⟨1, 1, 99, true⟩]).2.1 ≤
          c.vdev_max_asize) ∧
    ((vdev_draid_calculate_asize
        [⟨10, 20, 9, false⟩, ⟨7, 30, 12, false⟩, ⟨1, 1, 99, true⟩]).2.2 ∈
        ((([⟨10, 20, 9, false⟩, ⟨7, 30, 12, false⟩, ⟨1, 1, 99, true⟩] :
            List draid_child_caps).filter
              fun c => !c.is_distributed_spare).map fun c => c.vdev_ashift) ∧
      ∀ c ∈ ([⟨10, 20, 9, false⟩, ⟨7, 30, 12, false⟩, ⟨1, 1, 99, true⟩] :
          List draid_child_caps).filter (fun c => !c.is_distributed_spare),
        c.vdev_ashift ≤ (vdev_draid_calculate_asize
          [⟨10, 20, 9, false⟩, ⟨7, 30, 12, false⟩, ⟨1, 1, 99, true⟩]).2.2) :=
  vdev_draid_calculate_asize_min_spec _
    (by intro c hc hsp; fin_cases hc <;> simp_all <;> decide)
    ⟨⟨10, 20, 9, false⟩, by decide⟩

lemma char_digit_isDigit {d : ℕ} (hd : d < 10) :
    (Char.ofNat (48 + d)).isDigit = true := by
  interval_cases d <;> decide

lemma char_digit_toNat {d : ℕ} (hd : d < 10) :
    (Char.ofNat (48 + d)).toNat = 48 + d := by
  interval_cases d <;> decide

lemma char_digit_not_space {d : ℕ} (hd : d < 10) :
    is_space_char (Char.ofNat (48 + d)) = false := by
  interval_cases d <;> decide

lemma char_digit_ne_sign {d : ℕ} (hd : d < 10) :
    Char.ofNat (48 + d) ≠ '-' ∧ Char.ofNat (48 + d) ≠ '+' := by
  interval_cases d <;> exact ⟨by decide, by decide⟩

lemma scan_digits_append (ds : List ℕ) :
    ∀ (acc : ℕ) (rest : List Char), (∀ d ∈ ds, d < 10) →
      (∀ c s, rest = c :: s → c.isDigit = false) →
      scan_digits acc ((ds.map fun d => Char.ofNat (48 + d)) ++ rest) =
        (acc * 10 ^ ds.length + Nat.ofDigits 10 ds.reverse, rest) := by
  induction ds with
  | nil =>
      intro acc rest _ hrest
      cases rest with
      | nil => simp [scan_digits, Nat.ofDigits]
      | cons c s =>
          rw [List.map_nil, List.nil_append, scan_digits, if_neg]
          · simp [Nat.ofDigits]
          · rw [hrest c s rfl]; simp
  | cons d tl ih =>
      intro acc rest hds hrest
      have hd : d < 10 := hds d (by simp)
      rw [List.map_cons, List.cons_append, scan_digits,
        if_pos (char_digit_isDigit hd), char_digit_toNat hd]
      have hacc : acc * 10 + (48 + d - 48) = acc * 10 + d := by omega
      rw [hacc, ih (acc * 10 + d) rest (fun x hx => hds x (by simp [hx])) hrest]
      have hof : Nat.ofDigits 10 (d :: tl).reverse =
          Nat.ofDigits 10 tl.reverse + 10 ^ tl.length * d := by
        rw [List.reverse_cons, Nat.ofDigits_append]
        simp [Nat.ofDigits_singleton, List.length_reverse]
      rw [hof]
      simp only [List.length_cons, Prod.mk.injEq]
      exact ⟨by ring, trivial⟩

lemma nat_decimal_chars_eq (n : ℕ) :
    nat_decimal_chars n =
      (if n = 0 then [0] else (Nat.digits 10 n).reverse).map
        fun d => Char.ofNat (48 + d) := by
  by_cases h : n = 0
  · subst h; rfl
  · simp [nat_decimal_chars, h]

lemma scan_ull_digit_list (rest : List Char)
    (hrest : ∀ c s, rest = c :: s → c.isDigit = false) (ds : List ℕ)
    (hne : ds ≠ []) (hbound : ∀ d ∈ ds, d < 10)
    (hval : Nat.ofDigits 10 ds.reverse < w64) :
    scan_ull ((ds.map fun d => Char.ofNat (48 + d)) ++ rest) =
      some (Nat.ofDigits 10 ds.reverse, rest) := by
  obtain ⟨d0, tl, hm⟩ := List.exists_cons_of_ne_nil hne
  subst hm
  have hd0 : d0 < 10 := hbound d0 (by simp)
  have htl : ∀ d ∈ tl, d < 10 := fun d hd => hbound d (by simp [hd])
  have hdrop : List.dropWhile is_space_char
      (Char.ofNat (48 + d0) :: ((tl.map fun d => Char.ofNat (48 + d)) ++ rest)) =
      Char.ofNat (48 + d0) :: ((tl.map fun d => Char.ofNat (48 + d)) ++ rest) := by
    rw [List.dropWhile_cons, char_digit_not_space hd0]
    simp
  rw [List.map_cons, List.cons_append]
  simp only [scan_ull, hdrop, (char_digit_ne_sign hd0).1, (char_digit_ne_sign hd0).2,
    if_false, scan_ull_digits, char_digit_isDigit hd0, if_true, char_digit_toNat hd0]
  have hsub : 48 + d0 - 48 = d0 := by omega
  rw [hsub, scan_digits_append tl d0 rest htl hrest]
  have hv2 : d0 * 10 ^ tl.length + Nat.ofDigits 10 tl.reverse =
      Nat.ofDigits 10 (d0 :: tl).reverse := by
    rw [List.reverse_cons, Nat.ofDigits_append]
    simp [Nat.ofDigits_singleton, List.length_reverse]
    ring
  simp only [strtoull_conv, Bool.false_eq_true, if_false, hv2]
  rw [Nat.min_eq_left (by omega)]

lemma scan_ull_decimal (n : ℕ) (rest : List Char)
    (hrest : ∀ c s, rest = c :: s → c.isDigit = false) (hn : n < w64) :
    scan_ull (nat_decimal_chars n ++ rest) = some (n, rest) := by
  by_cases h : n = 0
  · subst h
    have := scan_ull_digit_list rest hrest [0] (by simp) (by simp)
      (by norm_num [Nat.ofDigits, w64])
    simpa [nat_decimal_chars_eq, Nat.ofDigits] using this
  · have hb : ∀ d ∈ (Nat.digits 10 n).reverse, d < 10 := by
      intro d hd
      exact Nat.digits_lt_base (by norm_num) (List.mem_reverse.mp hd)
    have hne2 : (Nat.digits 10 n).reverse ≠ [] := by
      simp [Nat.digits_ne_nil_iff_ne_zero, h]
    have hmain := scan_ull_digit_list rest hrest _ hne2 hb
      (by rw [List.reverse_reverse, Nat.ofDigits_digits]; exact hn)
    rw [nat_decimal_chars_eq]
    simp only [h, if_false]
    rw [hmain, List.reverse_reverse, Nat.ofDigits_digits]

lemma string_mk_toList (l : List Char) : (String.mk l).toList = l := rfl

lemma scan_literal_draid (X : List Char) :
    scan_literal ['d', 'r', 'a', 'i', 'd'] ('d' :: 'r' :: 'a' :: 'i' :: 'd' :: X) =
      some X := by
  simp [scan_literal]

lemma scan_literal_dash (Y : List Char) :
    scan_literal ['-'] ('-' :: Y) = some Y := by
  simp [scan_literal]

lemma nat_decimal_chars_digit (n : ℕ) :
    ∀ c ∈ nat_decimal_chars n, c.isDigit = true := by
  intro c hc
  rw [nat_decimal_chars_eq] at hc
  rcases List.mem_map.mp hc with ⟨d, hd, rfl⟩
  by_cases h : n = 0
  · rw [if_pos h] at hd
    have hd0 : d = 0 := by simpa using hd
    subst hd0
    exact char_digit_isDigit (by norm_num)
  · rw [if_neg h] at hd
    exact char_digit_isDigit
      (Nat.digits_lt_base (by norm_num) (List.mem_reverse.mp hd))

lemma spare_name_char_mem (parity vdev_id spare_id : ℕ) (c : Char)
    (hc : c ∈ ('d' :: 'r' :: 'a' :: 'i' :: 'd' :: nat_decimal_chars parity) ++
      '-' :: nat_decimal_chars vdev_id ++ '-' :: nat_decimal_chars spare_id) :
    c ∈ (['d', 'r', 'a', 'i', '-'] : List Char) ∨ c.isDigit = true := by
  rcases List.mem_append.mp hc with h | h
  · rcases List.mem_cons.mp h with rfl | h
    · left; decide
    rcases List.mem_cons.mp h with rfl | h
    · left; decide
    rcases List.mem_cons.mp h with rfl | h
    · left; decide
    rcases List.mem_cons.mp h with rfl | h
    · left; decide
    rcases List.mem_cons.mp h with rfl | h
    · left; decide
    rcases List.mem_append.mp h with h | h
    · exact Or.inr (nat_decimal_chars_digit parity c h)
    rcases List.mem_cons.mp h with rfl | h
    · left; decide
    · exact Or.inr (nat_decimal_chars_digit vdev_id c h)
  · rcases List.mem_cons.mp h with rfl | h
    · left; decide
    · exact Or.inr (nat_decimal_chars_digit spare_id c h)

/-- C9 (amended): the distributed-spare name grammar `draid<P>-<V>-<S>`
round-trips — parsing a formatted name with `vdev_draid_spare_values`
recovers exactly the `(spare_id, parity, vdev_id)` triple passed to
`vdev_draid_spare_name` for every `uint64` triple — and a name whose three
fields cannot all be matched, such as the two-field `draid1-0`, fails with
`EINVAL`.  (Not every string outside the grammar fails: `sscanf` is
prefix-matching, see the counterexample.) -/
theorem vdev_draid_spare_name_values_spec :
    (∀ parity vdev_id spare_id : ℕ,
      parity < w64 → vdev_id < w64 → spare_id < w64 →
      vdev_draid_spare_values (vdev_draid_spare_name spare_id parity vdev_id) =
        Except.ok (spare_id, parity, vdev_id)) ∧
    vdev_draid_spare_values "draid1-0" = Except.error EINVAL := by
  constructor
  · intro parity vdev_id spare_id hp hv hs
    rw [vdev_draid_spare_name, vdev_draid_spare_values, string_mk_toList]
    have hfix : ('d' :: 'r' :: 'a' :: 'i' :: 'd' :: nat_decimal_chars parity) ++
        '-' :: nat_decimal_chars vdev_id ++ '-' :: nat_decimal_chars spare_id =
        'd' :: 'r' :: 'a' :: 'i' :: 'd' :: (nat_decimal_chars parity ++
          '-' :: (nat_decimal_chars vdev_id ++ '-' :: nat_decimal_chars spare_id)) := by
      simp
    have h1 := scan_ull_decimal parity ('-' :: (nat_decimal_chars vdev_id ++
        '-' :: nat_decimal_chars spare_id)) (by intro c s h; cases h; decide) hp
    have h2 := scan_ull_decimal vdev_id ('-' :: nat_decimal_chars spare_id)
        (by intro c s h; cases h; decide) hv
    have h3 : scan_ull (nat_decimal_chars spare_id) = some (spare_id, []) := by
      have h := scan_ull_decimal spare_id [] (by intro c s h; cases h) hs
      simpa using h
    rw [hfix]
    simp only [scan_literal_draid, h1, scan_literal_dash, h2, h3]
  · rfl

/-- C9 witness: the name formatted from `(spare_id, parity, vdev_id) =
(0, 1, 0)` parses back to the same triple. -/
theorem vdev_draid_spare_name_values_witness :
    vdev_draid_spare_values (vdev_draid_spare_name 0 1 0) =
      Except.ok (0, 1, 0) :=
  vdev_draid_spare_name_values_spec.1 1 0 0 (by norm_num [w64])
    (by norm_num [w64]) (by norm_num [w64])

/-- C9 counterexample: parsing is `sscanf`-based and prefix-matching, so a
string that is not of the `draid<P>-<V>-<S>` grammar form can still parse
successfully rather than failing with `EINVAL`: `draid1-2-3x` parses as
`(spare_id, parity, vdev_id) = (3, 1, 2)` with the trailing `x` ignored,
yet it equals no formatted spare name — those consist only of the letters
of `draid`, dashes and decimal digits, never an `x`. -/
theorem vdev_draid_spare_values_prefix_cex :
    vdev_draid_spare_values "draid1-2-3x" = Except.ok (3, 1, 2) ∧
    ∀ spare_id parity vdev_id : ℕ,
      vdev_draid_spare_name spare_id parity vdev_id ≠ "draid1-2-3x" := by
  refine ⟨rfl, ?_⟩
  intro spare_id parity vdev_id h
  rw [vdev_draid_spare_name] at h
  have hl := congrArg String.toList h
  rw [string_mk_toList] at hl
  have hx : 'x' ∈ ('d' :: 'r' :: 'a' :: 'i' :: 'd' :: nat_decimal_chars parity) ++
      '-' :: nat_decimal_chars vdev_id ++ '-' :: nat_decimal_chars spare_id := by
    rw [hl]
    decide
  rcases spare_name_char_mem parity vdev_id spare_id 'x' hx with hmem | hdig
  · exact absurd hmem (by decide)
  · exact absurd hdig (by decide)

set_option maxRecDepth 4000 in
lemma draid_maps_length : draid_maps.length = 254 := by decide

set_option maxRecDepth 4000 in
set_option maxHeartbeats 1000000 in
lemma draid_maps_entry_facts :
    ∀ j, j < 254 →
      (draid_maps.getD j draid_map_zero).dm_children = j + 2 ∧
      (draid_maps.getD j draid_map_zero).dm_nperms = 256 := by decide

lemma draid_maps_getD_indep (j : ℕ) (hj : j < draid_maps.length) (oob : draid_map) :
    draid_maps.getD j oob = draid_maps.getD j draid_map_zero := by
  rw [List.getD_eq_getElem _ _ hj, List.getD_eq_getElem _ _ hj]

lemma vdev_draid_lookup_map_loop_found (oob : draid_map) (children : ℕ)
    (k : ℕ) (hk : k ≤ 254)
    (hmatch : (draid_maps.getD k oob).dm_children = children) :
    ∀ n i, i ≤ k → k - i = n →
      (∀ j, i ≤ j → j < k → (draid_maps.getD j oob).dm_children ≠ children) →
      (vdev_draid_lookup_map_loop oob children i).1 =
        Except.ok ((draid_maps.getD k oob).dm_seed,
          (draid_maps.getD k oob).dm_checksum,
          (draid_maps.getD k oob).dm_nperms) ∧
      ∀ a ∈ (vdev_draid_lookup_map_loop oob children i).2, a ≤ k := by
  intro n
  induction n with
  | zero =>
      intro i hik hd _hno
      have hi : i = k := by omega
      subst hi
      rw [vdev_draid_lookup_map_loop]
      simp only [VDEV_DRAID_MAX_MAPS]
      rw [if_pos hk]
      simp only [hmatch, if_pos rfl]
      refine ⟨rfl, ?_⟩
      intro a ha
      simp at ha
      omega
  | succ n ih =>
      intro i hik hd hno
      have hik' : i < k := by omega
      rw [vdev_draid_lookup_map_loop]
      simp only [VDEV_DRAID_MAX_MAPS]
      rw [if_pos (by omega)]
      have hne : ¬ (draid_maps.getD i oob).dm_children = children :=
        hno i (le_refl i) hik'
      rw [if_neg hne]
      obtain ⟨h1, h2⟩ := ih (i + 1) (by omega) (by omega)
        (fun j hj1 hj2 => hno j (by omega) hj2)
      refine ⟨h1, ?_⟩
      intro a ha
      simp only [List.mem_cons] at ha
      rcases ha with h | h
      · omega
      · exact h2 a h

lemma vdev_draid_lookup_map_loop_notfound (oob : draid_map) (children : ℕ)
    (hno : ∀ j, j ≤ 254 → (draid_maps.getD j oob).dm_children ≠ children) :
    ∀ n i, 255 - i = n →
      (vdev_draid_lookup_map_loop oob children i).1 = Except.error ENOENT ∧
      (i ≤ 254 → (254 : ℕ) ∈ (vdev_draid_lookup_map_loop oob children i).2) := by
  intro n
  induction n with
  | zero =>
      intro i hd
      have hle : ¬ i ≤ VDEV_DRAID_MAX_MAPS := by
        simp only [VDEV_DRAID_MAX_MAPS]
        omega
      rw [vdev_draid_lookup_map_loop, if_neg hle]
      exact ⟨rfl, fun h => absurd h (by omega)⟩
  | succ n ih =>
      intro i hd
      have hle : i ≤ 254 := by omega
      have hle' : i ≤ VDEV_DRAID_MAX_MAPS := by
        simp only [VDEV_DRAID_MAX_MAPS]
        omega
      rw [vdev_draid_lookup_map_loop, if_pos hle', if_neg (hno i hle)]
      obtain ⟨h1, h2⟩ := ih (i + 1) (by omega)
      refine ⟨h1, fun _ => ?_⟩
      simp only [List.mem_cons]
      by_cases hi : i = 254
      · left; omega
      · right; exact h2 (by omega)

/-- C5 (amended): for `children ∈ [2, 255]` the lookup returns the frozen
table row for that child count — `(seed, checksum, nperms)` with
`nperms = 256` — and every index the search loop reads lies inside the
254-entry table.  For `children` outside `[2, 255]` the loop finds no match
and returns `ENOENT` — provided the out-of-bounds entry it reads at index
`VDEV_DRAID_MAX_MAPS = 254`, one past the table, does not spuriously match
— but that final read is outside the table, refuting the claim's bounds
clause (the loop bound is `i <= VDEV_DRAID_MAX_MAPS` over a table of
`VDEV_DRAID_MAX_MAPS` entries). -/
theorem vdev_draid_lookup_map_spec (oob : draid_map) (children : ℕ) :
    (2 ≤ children → children ≤ 255 →
      (vdev_draid_lookup_map oob children).1 =
        Except.ok ((draid_maps.getD (children - 2) draid_map_zero).dm_seed,
          (draid_maps.getD (children - 2) draid_map_zero).dm_checksum, 256) ∧
      (draid_maps.getD (children - 2) draid_map_zero).dm_children = children ∧
      ∀ a ∈ (vdev_draid_lookup_map oob children).2, a < draid_maps.length) ∧
    ((children < 2 ∨ 255 < children) → oob.dm_children ≠ children →
      (vdev_draid_lookup_map oob children).1 = Except.error ENOENT ∧
      VDEV_DRAID_MAX_MAPS ∈ (vdev_draid_lookup_map oob children).2 ∧
      draid_maps.length ≤ VDEV_DRAID_MAX_MAPS) := by
  have hlen : draid_maps.length = 254 := draid_maps_length
  constructor
  · intro h2 h255
    have hk : children - 2 < 254 := by omega
    have hindep := draid_maps_getD_indep (children - 2) (by omega) oob
    have hfacts := draid_maps_entry_facts (children - 2) hk
    have hmatch : (draid_maps.getD (children - 2) oob).dm_children = children := by
      rw [hindep, hfacts.1]
      omega
    have hno : ∀ j, 0 ≤ j → j < children - 2 →
        (draid_maps.getD j oob).dm_children ≠ children := by
      intro j _ hj
      rw [draid_maps_getD_indep j (by omega) oob,
        (draid_maps_entry_facts j (by omega)).1]
      omega
    obtain ⟨h1, hacc⟩ := vdev_draid_lookup_map_loop_found oob children
      (children - 2) (by omega) hmatch (children - 2) 0 (Nat.zero_le _) (by omega) hno
    refine ⟨?_, ?_, ?_⟩
    · rw [vdev_draid_lookup_map, h1, hindep, hfacts.2]
    · rw [← hindep, hmatch]
    · intro a ha
      have := hacc a ha
      omega
  · intro hrange hoob
    have hno : ∀ j, j ≤ 254 →
        (draid_maps.getD j oob).dm_children ≠ children := by
      intro j hj
      by_cases hjlt : j < 254
      · rw [draid_maps_getD_indep j (by omega) oob,
          (draid_maps_entry_facts j hjlt).1]
        omega
      · have hj254 : j = 254 := by omega
        subst hj254
        rw [List.getD_eq_default _ _ (by omega)]
        exact hoob
    obtain ⟨h1, h2⟩ := vdev_draid_lookup_map_loop_notfound oob children hno 255 0 rfl
    refine ⟨h1, by simpa [VDEV_DRAID_MAX_MAPS] using h2 (by omega), ?_⟩
    simp only [VDEV_DRAID_MAX_MAPS]
    omega

/-- C5 counterexample: looking up a child count with no table row (here
`children = 256`) makes the search loop read table index 254, one past the
last valid index of the 254-entry `draid_maps` array — the loop's accesses
do not all stay inside the table. -/
theorem vdev_draid_lookup_map_oob_access_cex :
    VDEV_DRAID_MAX_MAPS ∈ (vdev_draid_lookup_map draid_map_zero 256).2 ∧
    ¬ VDEV_DRAID_MAX_MAPS < draid_maps.length := by
  obtain ⟨_, hmem, hlen⟩ := (vdev_draid_lookup_map_spec draid_map_zero 256).2
    (by norm_num) (by simp [draid_map_zero])
  exact ⟨hmem, by omega⟩

/-- C5 witness: the amended theorem at `children = 14` (and, for the
not-found half, at `children = 256` with a non-matching out-of-bounds
entry). -/
theorem vdev_draid_lookup_map_spec_witness :
    ((vdev_draid_lookup_map draid_map_zero 14).1 =
        Except.ok ((draid_maps.getD 12 draid_map_zero).dm_seed,
          (draid_maps.getD 12 draid_map_zero).dm_checksum, 256) ∧
      (draid_maps.getD 12 draid_map_zero).dm_children = 14 ∧
      ∀ a ∈ (vdev_draid_lookup_map draid_map_zero 14).2,
        a < draid_maps.length) ∧
    ((vdev_draid_lookup_map draid_map_zero 256).1 = Except.error ENOENT) :=
  ⟨(vdev_draid_lookup_map_spec draid_map_zero 14).1 (by norm_num) (by norm_num),
   ((vdev_draid_lookup_map_spec draid_map_zero 256).2 (by norm_num)
      (by simp [draid_map_zero])).1⟩

lemma mod_w64_sub_one {x : ℕ} (hx0 : 0 < x) (hx : x < w64) :
    (x + (w64 - 1)) % w64 = x - 1 := by
  have hw : 0 < w64 := by simp [w64]
  have : x + (w64 - 1) = (x - 1) + 1 * w64 := by omega
  rw [this, Nat.add_mul_mod_self_right]
  exact Nat.mod_eq_of_lt (by omega)

lemma vdev_draid_asize_eval (vdc : vdev_draid_config) (ashift psize : ℕ)
    (hnd : 0 < vdc.vdc_ndata) (hp0 : 0 < psize) (hp64 : psize < w64)
    (hu : vdc.vdc_ndata <<< ashift < w64)
    (hres : ((psize - 1) / (vdc.vdc_ndata <<< ashift) + 1) *
      vdc.vdc_groupwidth * 2 ^ ashift < w64) :
    vdev_draid_asize vdc ashift psize =
      ((psize - 1) / (vdc.vdc_ndata <<< ashift) + 1) *
        vdc.vdc_groupwidth * 2 ^ ashift := by
  have hu0 : 0 < vdc.vdc_ndata <<< ashift := by
    rw [Nat.shiftLeft_eq]
    positivity
  rw [vdev_draid_asize]
  simp only [Nat.mod_eq_of_lt hu, mod_w64_sub_one hp0 hp64]
  have hrows_lt : (psize - 1) / (vdc.vdc_ndata <<< ashift) + 1 < w64 := by
    have h1 : (psize - 1) / (vdc.vdc_ndata <<< ashift) ≤ psize - 1 :=
      Nat.div_le_self _ _
    omega
  rw [Nat.mod_eq_of_lt hrows_lt, Nat.shiftLeft_eq]
  exact Nat.mod_eq_of_lt hres

/-- C3 counterexample: at `psize = 0` (with `ndata = 3`, `groupwidth = 4`,
`ashift = 0`) the `uint64_t` computation `(psize - 1) / (ndata << ashift) + 1`
wraps, and `vdev_draid_asize` does not equal
`ceil(psize / (ndata × 2^ashift)) × groupwidth × 2^ashift = 0`. -/
theorem vdev_draid_asize_psize_zero_cex :
    vdev_draid_asize ⟨3, 1, 1, 5, 4, draid_map_zero, 4, 4, 0, 0⟩ 0 0 =
        6148914691236517208 ∧
    ((0 + 3 * 2 ^ 0 - 1) / (3 * 2 ^ 0)) * 4 * 2 ^ 0 = 0 ∧
    vdev_draid_asize ⟨3, 1, 1, 5, 4, draid_map_zero, 4, 4, 0, 0⟩ 0 0 ≠
      ((0 + 3 * 2 ^ 0 - 1) / (3 * 2 ^ 0)) * 4 * 2 ^ 0 := by
  refine ⟨by decide, by decide, by decide⟩

/-- C3 (amended): for every configuration with `0 < ndata ≤ groupwidth > 0`
and every `psize` with `1 ≤ psize < 2^64` whose result does not overflow
`uint64_t`, `vdev_draid_asize` equals
`ceil(psize / (ndata × 2^ashift)) × groupwidth × 2^ashift` (the ceiling
written as `(psize + u - 1) / u` with `u = ndata << ashift`), and the
`asize / asize_to_psize` pair is round-trip idempotent:
`asize(asize_to_psize(asize(p))) = asize(p)`.  At `psize = 0` the `uint64`
subtraction `psize - 1` wraps and the ceiling formula does not hold. -/
theorem vdev_draid_asize_ceil_roundtrip (vdc : vdev_draid_config)
    (ashift psize : ℕ) (hnd : 0 < vdc.vdc_ndata) (hgw : 0 < vdc.vdc_groupwidth)
    (hndgw : vdc.vdc_ndata ≤ vdc.vdc_groupwidth)
    (hp0 : 0 < psize) (hp64 : psize < w64)
    (hu : vdc.vdc_ndata <<< ashift < w64)
    (hres : ((psize + vdc.vdc_ndata <<< ashift - 1) / (vdc.vdc_ndata <<< ashift)) *
      vdc.vdc_groupwidth * 2 ^ ashift < w64) :
    vdev_draid_asize vdc ashift psize =
      ((psize + vdc.vdc_ndata <<< ashift - 1) / (vdc.vdc_ndata <<< ashift)) *
        vdc.vdc_groupwidth * 2 ^ ashift ∧
    vdev_draid_asize vdc ashift
        (vdev_draid_asize_to_psize vdc (vdev_draid_asize vdc ashift psize)) =
      vdev_draid_asize vdc ashift psize := by
  have hu0 : 0 < vdc.vdc_ndata <<< ashift := by
    rw [Nat.shiftLeft_eq]
    positivity
  have hceil : (psize + vdc.vdc_ndata <<< ashift - 1) / (vdc.vdc_ndata <<< ashift) =
      (psize - 1) / (vdc.vdc_ndata <<< ashift) + 1 := by
    have h1 : psize + vdc.vdc_ndata <<< ashift - 1 =
        (psize - 1) + vdc.vdc_ndata <<< ashift := by omega
    rw [h1, Nat.add_div_right _ hu0]
  rw [hceil] at hres ⊢
  have heval := vdev_draid_asize_eval vdc ashift psize hnd hp0 hp64 hu hres
  refine ⟨heval, ?_⟩
  set rows := (psize - 1) / (vdc.vdc_ndata <<< ashift) + 1 with hrows
  have hrows0 : 0 < rows := by rw [hrows]; exact Nat.succ_pos _
  -- the deflated psize
  have hdiv : rows * vdc.vdc_groupwidth * 2 ^ ashift / vdc.vdc_groupwidth =
      rows * 2 ^ ashift := by
    rw [show rows * vdc.vdc_groupwidth * 2 ^ ashift =
        vdc.vdc_groupwidth * (rows * 2 ^ ashift) by ring]
    exact Nat.mul_div_cancel_left _ hgw
  have hple : rows * 2 ^ ashift * vdc.vdc_ndata ≤
      rows * vdc.vdc_groupwidth * 2 ^ ashift := by
    calc rows * 2 ^ ashift * vdc.vdc_ndata ≤
        rows * 2 ^ ashift * vdc.vdc_groupwidth :=
          Nat.mul_le_mul_left _ hndgw
      _ = rows * vdc.vdc_groupwidth * 2 ^ ashift := by ring
  have hlt2 : rows * 2 ^ ashift * vdc.vdc_ndata < w64 := lt_of_le_of_lt hple hres
  have hpsize' : vdev_draid_asize_to_psize vdc (vdev_draid_asize vdc ashift psize) =
      rows * (vdc.vdc_ndata <<< ashift) := by
    rw [heval, vdev_draid_asize_to_psize, hdiv, Nat.mod_eq_of_lt hlt2,
      Nat.shiftLeft_eq]
    ring
  rw [hpsize']
  have hp'0 : 0 < rows * (vdc.vdc_ndata <<< ashift) := by positivity
  have hp'64 : rows * (vdc.vdc_ndata <<< ashift) < w64 := by
    have : rows * (vdc.vdc_ndata <<< ashift) ≤
        rows * vdc.vdc_groupwidth * 2 ^ ashift := by
      rw [Nat.shiftLeft_eq]
      calc rows * (vdc.vdc_ndata * 2 ^ ashift) =
          rows * 2 ^ ashift * vdc.vdc_ndata := by ring
        _ ≤ rows * vdc.vdc_groupwidth * 2 ^ ashift := hple
    omega
  have hrowback : (rows * (vdc.vdc_ndata <<< ashift) - 1) /
      (vdc.vdc_ndata <<< ashift) + 1 = rows := by
    have h2 : rows * (vdc.vdc_ndata <<< ashift) =
        (rows - 1) * (vdc.vdc_ndata <<< ashift) + (vdc.vdc_ndata <<< ashift) := by
      obtain ⟨r, hr⟩ : ∃ r, rows = r + 1 := ⟨rows - 1, by omega⟩
      rw [hr]
      simp
      ring
    have h1 : rows * (vdc.vdc_ndata <<< ashift) - 1 =
        (rows - 1) * (vdc.vdc_ndata <<< ashift) +
          ((vdc.vdc_ndata <<< ashift) - 1) := by omega
    rw [h1, Nat.mul_comm (rows - 1) _, Nat.mul_add_div hu0,
      Nat.div_eq_of_lt (by omega)]
    omega
  rw [vdev_draid_asize_eval vdc ashift _ hnd hp'0 hp'64 hu
    (by rw [hrowback]; exact hres), hrowback, heval]

/-- C3 witness: the amended theorem at `ndata = 8`, `groupwidth = 9`,
`ashift = 9`, `psize = 4096`: `asize = 4608` and the round trip is
idempotent. -/
theorem vdev_draid_asize_ceil_roundtrip_witness :
    vdev_draid_asize ⟨8, 1, 2, 14, 13, draid_map_zero, 9, 12, 0, 0⟩ 9 4096 =
      ((4096 + 8 <<< 9 - 1) / (8 <<< 9)) * 9 * 2 ^ 9 ∧
    vdev_draid_asize ⟨8, 1, 2, 14, 13, draid_map_zero, 9, 12, 0, 0⟩ 9
        (vdev_draid_asize_to_psize ⟨8, 1, 2, 14, 13, draid_map_zero, 9, 12, 0, 0⟩
          (vdev_draid_asize ⟨8, 1, 2, 14, 13, draid_map_zero, 9, 12, 0, 0⟩ 9 4096)) =
      vdev_draid_asize ⟨8, 1, 2, 14, 13, draid_map_zero, 9, 12, 0, 0⟩ 9 4096 :=
  vdev_draid_asize_ceil_roundtrip _ 9 4096 (by decide) (by decide)
    (by decide) (by decide) (by decide) (by decide) (by decide)

/-- C7 (amended): for every I/O to an open distributed spare whose offset
lies in a label-reserved range: a read succeeds (error 0) iff the probe
flag is set, and such a read leaves the caller's buffer untouched (the
label contents are synthesized out of band, not zero-filled by this path);
a write succeeds iff the probe or config-writer flag is set; every other
label-range read or write fails with `EIO`; and no child I/O is issued. -/
theorem vdev_draid_spare_io_label_spec
    (fuel psize spare_id nchildren nperms devslicesz : ℕ)
    (perms : List ℕ) (children : List dvdev) (zio : zio_model)
    (hlab : vdev_offset_is_label psize zio.io_offset = true) :
    (zio.io_type = zio_type.read →
      ((vdev_draid_spare_io_start fuel
          (.spare true psize spare_id nchildren nperms devslicesz perms children)
          zio).io_error = 0 ↔ zio.io_flag_probe = true) ∧
      (zio.io_flag_probe = false →
        (vdev_draid_spare_io_start fuel
          (.spare true psize spare_id nchildren nperms devslicesz perms children)
          zio).io_error = EIO) ∧
      (vdev_draid_spare_io_start fuel
          (.spare true psize spare_id nchildren nperms devslicesz perms children)
          zio).io_data = zio.io_data ∧
      (vdev_draid_spare_io_start fuel
          (.spare true psize spare_id nchildren nperms devslicesz perms children)
          zio).child_ios = []) ∧
    (zio.io_type = zio_type.write →
      ((vdev_draid_spare_io_start fuel
          (.spare true psize spare_id nchildren nperms devslicesz perms children)
          zio).io_error = 0 ↔
        (zio.io_flag_probe || zio.io_flag_config_writer) = true) ∧
      ((zio.io_flag_probe || zio.io_flag_config_writer) = false →
        (vdev_draid_spare_io_start fuel
          (.spare true psize spare_id nchildren nperms devslicesz perms children)
          zio).io_error = EIO) ∧
      (vdev_draid_spare_io_start fuel
          (.spare true psize spare_id nchildren nperms devslicesz perms children)
          zio).io_data = zio.io_data ∧
      (vdev_draid_spare_io_start fuel
          (.spare true psize spare_id nchildren nperms devslicesz perms children)
          zio).child_ios = []) := by
  constructor
  · intro ht
    cases hp : zio.io_flag_probe <;>
      simp [vdev_draid_spare_io_start, ht, hlab, hp, EIO]
  · intro ht
    cases hp : zio.io_flag_probe <;> cases hcw : zio.io_flag_config_writer <;>
      simp [vdev_draid_spare_io_start, ht, hlab, hp, hcw, EIO]

/-- C7 counterexample: a label-range probe read of one sector whose buffer
holds the byte 7 succeeds but returns the buffer unchanged — the data is
not zeroed, contradicting the claim's "zeroed data" clause. -/
theorem vdev_draid_spare_io_label_read_not_zeroed_cex :
    (vdev_draid_spare_io_start 1
        (.spare true (VDEV_LABEL_START_SIZE + VDEV_LABEL_END_SIZE + 4096) 0 2 1 1
          [0, 1] [.real true true true, .real true true true])
        ⟨zio_type.read, 0, 0, 1, true, false, [7]⟩).io_error = 0 ∧
    (vdev_draid_spare_io_start 1
        (.spare true (VDEV_LABEL_START_SIZE + VDEV_LABEL_END_SIZE + 4096) 0 2 1 1
          [0, 1] [.real true true true, .real true true true])
        ⟨zio_type.read, 0, 0, 1, true, false, [7]⟩).io_data = [7] ∧
    ([7] : List ℕ) ≠ List.replicate 1 0 := by
  refine ⟨rfl, rfl, by decide⟩

/-- C7 witness: the amended theorem at a concrete label-range probe read. -/
theorem vdev_draid_spare_io_label_spec_witness :
    ((vdev_draid_spare_io_start 1
        (.spare true (VDEV_LABEL_START_SIZE + VDEV_LABEL_END_SIZE + 4096) 0 2 1 1
          [0, 1] [.real true true true, .real true true true])
        ⟨zio_type.read, 0, 0, 1, true, false, [7]⟩).io_error = 0 ↔
      (⟨zio_type.read, 0, 0, 1, true, false, [7]⟩ : zio_model).io_flag_probe = true) ∧
    ((⟨zio_type.read, 0, 0, 1, true, false, [7]⟩ : zio_model).io_flag_probe = false →
      (vdev_draid_spare_io_start 1
        (.spare true (VDEV_LABEL_START_SIZE + VDEV_LABEL_END_SIZE + 4096) 0 2 1 1
          [0, 1] [.real true true true, .real true true true])
        ⟨zio_type.read, 0, 0, 1, true, false, [7]⟩).io_error = EIO) ∧
    (vdev_draid_spare_io_start 1
        (.spare true (VDEV_LABEL_START_SIZE + VDEV_LABEL_END_SIZE + 4096) 0 2 1 1
          [0, 1] [.real true true true, .real true true true])
        ⟨zio_type.read, 0, 0, 1, true, false, [7]⟩).io_data =
      (⟨zio_type.read, 0, 0, 1, true, false, [7]⟩ : zio_model).io_data ∧
    (vdev_draid_spare_io_start 1
        (.spare true (VDEV_LABEL_START_SIZE + VDEV_LABEL_END_SIZE + 4096) 0 2 1 1
          [0, 1] [.real true true true, .real true true true])
        ⟨zio_type.read, 0, 0, 1, true, false, [7]⟩).child_ios = [] :=
  (vdev_draid_spare_io_label_spec 1
    (VDEV_LABEL_START_SIZE + VDEV_LABEL_END_SIZE + 4096) 0 2 1 1 [0, 1]
    [.real true true true, .real true true true]
    ⟨zio_type.read, 0, 0, 1, true, false, [7]⟩ (by decide)).1 rfl

/-- C8 (amended): for every I/O to an open distributed spare: a trim whose
resolved child does not support trim fails with `ENXIO` (not `ENOTSUP` as
claimed — the code uses the same error as for an unresolvable child); an
I/O of unknown type fails with `ENOTSUP`; an ioctl other than a cache flush
fails with `ENOTSUP`; and a cache-flush ioctl succeeds but issues no child
I/O — its broadcast loop runs over the children of `zio->io_vd`, the spare
leaf itself, which has none (so the flush is in fact not forwarded to the
parent dRAID's children, contrary to the claim). -/
theorem vdev_draid_spare_io_nonlabel_spec
    (fuel psize spare_id nchildren nperms devslicesz : ℕ)
    (perms : List ℕ) (children : List dvdev) (zio : zio_model) :
    (∀ cvd : dvdev, zio.io_type = zio_type.trim →
      vdev_draid_spare_get_child fuel
        (.spare true psize spare_id nchildren nperms devslicesz perms children)
        (zio.io_offset - VDEV_LABEL_START_SIZE) = some cvd →
      cvd.has_trim_b = false →
      (vdev_draid_spare_io_start fuel
        (.spare true psize spare_id nchildren nperms devslicesz perms children)
        zio).io_error = ENXIO) ∧
    ((zio.io_type = zio_type.null ∨ zio.io_type = zio_type.free ∨
        zio.io_type = zio_type.claimz) →
      (vdev_draid_spare_io_start fuel
        (.spare true psize spare_id nchildren nperms devslicesz perms children)
        zio).io_error = ENOTSUP) ∧
    (zio.io_type = zio_type.ioctl → zio.io_cmd ≠ DKIOCFLUSHWRITECACHE →
      (vdev_draid_spare_io_start fuel
        (.spare true psize spare_id nchildren nperms devslicesz perms children)
        zio).io_error = ENOTSUP) ∧
    (zio.io_type = zio_type.ioctl → zio.io_cmd = DKIOCFLUSHWRITECACHE →
      (vdev_draid_spare_io_start fuel
        (.spare true psize spare_id nchildren nperms devslicesz perms children)
        zio).io_error = 0 ∧
      (vdev_draid_spare_io_start fuel
        (.spare true psize spare_id nchildren nperms devslicesz perms children)
        zio).child_ios = []) := by
  refine ⟨?_, ?_, ?_, ?_⟩
  · intro cvd ht hres htrim
    simp [vdev_draid_spare_io_start, ht, hres, htrim]
  · intro ht
    rcases ht with h | h | h <;> simp [vdev_draid_spare_io_start, h]
  · intro ht hcmd
    simp [vdev_draid_spare_io_start, vdev_draid_spare_ioctl, ht, hcmd]
  · intro ht hcmd
    simp [vdev_draid_spare_io_start, vdev_draid_spare_ioctl, ht, hcmd]

/-- C8 counterexample: a trim to an open spare resolving (via the identity
permutation row) to a child without trim support fails with `ENXIO`, not
`ENOTSUP` as the claim states. -/
theorem vdev_draid_spare_trim_enxio_cex :
    vdev_draid_spare_get_child 9
        (.spare true (VDEV_LABEL_START_SIZE + VDEV_LABEL_END_SIZE + 4096) 0 2 1 1
          [0, 1] [.real true true true, .real false true true]) 0 =
      some (.real false true true) ∧
    (vdev_draid_spare_io_start 9
        (.spare true (VDEV_LABEL_START_SIZE + VDEV_LABEL_END_SIZE + 4096) 0 2 1 1
          [0, 1] [.real true true true, .real false true true])
        ⟨zio_type.trim, 0, VDEV_LABEL_START_SIZE, 4096, false, false, []⟩).io_error =
      ENXIO ∧
    ENXIO ≠ ENOTSUP := by
  refine ⟨rfl, by decide, by decide⟩

/-- C8 witness: the amended theorem at concrete trim and flush requests. -/
theorem vdev_draid_spare_io_nonlabel_spec_witness :
    (vdev_draid_spare_io_start 9
        (.spare true (VDEV_LABEL_START_SIZE + VDEV_LABEL_END_SIZE + 4096) 0 2 1 1
          [0, 1] [.real true true true, .real false true true])
        ⟨zio_type.trim, 0, VDEV_LABEL_START_SIZE, 4096, false, false, []⟩).io_error =
      ENXIO ∧
    (vdev_draid_spare_io_start 9
        (.spare true (VDEV_LABEL_START_SIZE + VDEV_LABEL_END_SIZE + 4096) 0 2 1 1
          [0, 1] [.real true true true, .real false true true])
        ⟨zio_type.ioctl, DKIOCFLUSHWRITECACHE, 0, 0, false, false, []⟩).child_ios =
      [] :=
  ⟨(vdev_draid_spare_io_nonlabel_spec 9
      (VDEV_LABEL_START_SIZE + VDEV_LABEL_END_SIZE + 4096) 0 2 1 1 [0, 1]
      [.real true true true, .real false true true]
      ⟨zio_type.trim, 0, VDEV_LABEL_START_SIZE, 4096, false, false, []⟩).1
      (.real false true true) rfl rfl rfl,
   ((vdev_draid_spare_io_nonlabel_spec 9
      (VDEV_LABEL_START_SIZE + VDEV_LABEL_END_SIZE + 4096) 0 2 1 1 [0, 1]
      [.real true true true, .real false true true]
      ⟨zio_type.ioctl, DKIOCFLUSHWRITECACHE, 0, 0, false, false, []⟩).2.2.2
      rfl rfl).2⟩

lemma add_mod_ne {n : ℕ} {i j : ℕ} (hi : i < n) (hj : j < n) (hij : i ≠ j)
    (a : ℕ) : (i + a) % n ≠ (j + a) % n := by
  intro h
  have h3 : i ≡ j [MOD n] := Nat.ModEq.add_right_cancel' a h
  have : i % n = j % n := h3
  rw [Nat.mod_eq_of_lt hi, Nat.mod_eq_of_lt hj] at this
  exact hij this

/-- C1: in a dRAID configuration whose permutation rows are each a
permutation of `0..children-1` and with `groupwidth ≤ ndisks ≤ children`,
the effective device index computed by `vdev_draid_permute_id` over
`vdev_draid_get_perm` lies in `[0, children)` for every column, and the
device indices of the `groupwidth` columns `(groupstart + i) % ndisks` of a
group are pairwise distinct. -/
theorem vdev_draid_permute_id_range_distinct (vdc : vdev_draid_config)
    (hchm : vdc.vdc_map.dm_children = vdc.vdc_children)
    (hlen : vdc.vdc_map.dm_perms.length =
      vdc.vdc_map.dm_nperms * vdc.vdc_map.dm_children)
    (hrows : ∀ k < vdc.vdc_map.dm_nperms,
      (draid_row vdc.vdc_map.dm_perms vdc.vdc_map.dm_children k).Perm
        (List.range vdc.vdc_map.dm_children))
    (hnp : 0 < vdc.vdc_map.dm_nperms)
    (hch : 0 < vdc.vdc_children)
    (hgwnd : vdc.vdc_groupwidth ≤ vdc.vdc_ndisks)
    (hndch : vdc.vdc_ndisks ≤ vdc.vdc_children)
    (pindex groupstart : ℕ) :
    (∀ c, c < vdc.vdc_children →
      vdev_draid_permute_id vdc (vdev_draid_get_perm vdc pindex).1
        (vdev_draid_get_perm vdc pindex).2 c < vdc.vdc_children) ∧
    (∀ i j, i < vdc.vdc_groupwidth → j < vdc.vdc_groupwidth → i ≠ j →
      vdev_draid_permute_id vdc (vdev_draid_get_perm vdc pindex).1
          (vdev_draid_get_perm vdc pindex).2
          ((groupstart + i) % vdc.vdc_ndisks) ≠
        vdev_draid_permute_id vdc (vdev_draid_get_perm vdc pindex).1
          (vdev_draid_get_perm vdc pindex).2
          ((groupstart + j) % vdc.vdc_ndisks)) := by
  have hrange : ∀ c, c < vdc.vdc_children →
      vdev_draid_permute_id vdc (vdev_draid_get_perm vdc pindex).1
        (vdev_draid_get_perm vdc pindex).2 c < vdc.vdc_children := by
    intro c _
    exact Nat.mod_lt _ hch
  refine ⟨hrange, ?_⟩
  rw [hchm] at hlen hrows
  -- notation for the pieces of get_perm
  have hpos : 0 < vdc.vdc_map.dm_nperms * vdc.vdc_children :=
    Nat.mul_pos hnp hch
  set poff := pindex % (vdc.vdc_map.dm_nperms * vdc.vdc_children) with hpoff_def
  have hpoff : poff < vdc.vdc_map.dm_nperms * vdc.vdc_children :=
    Nat.mod_lt _ hpos
  set ridx := poff / vdc.vdc_children with hridx_def
  have hridx : ridx < vdc.vdc_map.dm_nperms := by
    rw [hridx_def]
    exact (Nat.div_lt_iff_lt_mul hch).mpr hpoff
  have hbase : (vdev_draid_get_perm vdc pindex).1 =
      vdc.vdc_map.dm_perms.drop (ridx * vdc.vdc_children) := rfl
  set base := vdc.vdc_map.dm_perms.drop (ridx * vdc.vdc_children) with hbase_def
  have hblen : vdc.vdc_children ≤ base.length := by
    have h3 : base.length =
        vdc.vdc_map.dm_perms.length - ridx * vdc.vdc_children := by
      rw [hbase_def, List.length_drop]
    have h1 : (ridx + 1) * vdc.vdc_children ≤
        vdc.vdc_map.dm_nperms * vdc.vdc_children :=
      Nat.mul_le_mul_right _ hridx
    have h2 : (ridx + 1) * vdc.vdc_children =
        ridx * vdc.vdc_children + vdc.vdc_children := by ring
    omega
  -- the permutation row under `base`
  have hrowperm := hrows ridx hridx
  have hrow_eq : draid_row vdc.vdc_map.dm_perms vdc.vdc_children ridx =
      base.take vdc.vdc_children := by
    rw [draid_row, hbase_def]
  have hrownodup : (base.take vdc.vdc_children).Nodup := by
    rw [← hrow_eq]
    exact hrowperm.nodup_iff.mpr (List.nodup_range _)
  have hrowlen : (base.take vdc.vdc_children).length = vdc.vdc_children := by
    rw [List.length_take]
    omega
  have hgetD : ∀ c, (hc : c < vdc.vdc_children) →
      base.getD c 0 = (base.take vdc.vdc_children).get ⟨c, by omega⟩ := by
    intro c hc
    rw [List.get_eq_getElem, List.getD_eq_getElem _ _ (by omega : c < base.length)]
    exact (List.getElem_take base).symm
  have hvals : ∀ c, c < vdc.vdc_children →
      base.getD c 0 < vdc.vdc_children := by
    intro c hc
    have hx : base.getD c 0 ∈ base.take vdc.vdc_children := by
      rw [hgetD c hc, List.get_eq_getElem]
      exact List.getElem_mem _
    rw [← hrow_eq] at hx
    exact List.mem_range.mp (hrowperm.mem_iff.mp hx)
  intro i j hi hj hij
  have hnd : 0 < vdc.vdc_ndisks := by omega
  -- the two columns are distinct positions below ndisks
  have hc1 : (groupstart + i) % vdc.vdc_ndisks < vdc.vdc_ndisks := Nat.mod_lt _ hnd
  have hc2 : (groupstart + j) % vdc.vdc_ndisks < vdc.vdc_ndisks := Nat.mod_lt _ hnd
  have hcne : (groupstart + i) % vdc.vdc_ndisks ≠
      (groupstart + j) % vdc.vdc_ndisks := by
    have h1 : groupstart + i = i + groupstart := by ring
    have h2 : groupstart + j = j + groupstart := by ring
    rw [h1, h2]
    exact add_mod_ne (by omega) (by omega) hij groupstart
  -- distinct row entries at distinct positions
  have hbne : base.getD ((groupstart + i) % vdc.vdc_ndisks) 0 ≠
      base.getD ((groupstart + j) % vdc.vdc_ndisks) 0 := by
    rw [hgetD _ (by omega), hgetD _ (by omega)]
    intro h
    rw [List.get_eq_getElem, List.get_eq_getElem] at h
    exact hcne ((hrownodup.getElem_inj_iff).mp h)
  -- rotation preserves distinctness
  rw [vdev_draid_permute_id, vdev_draid_permute_id, draid_permute_id,
    draid_permute_id, hbase]
  exact add_mod_ne (hvals _ (by omega)) (hvals _ (by omega)) hbne
    (vdev_draid_get_perm vdc pindex).2

/-- C1 witness: the permutation range/distinctness theorem at the minimal
two-child configuration with the identity permutation row. -/
theorem vdev_draid_permute_id_range_distinct_witness :
    (∀ c, c < (2 : ℕ) →
      vdev_draid_permute_id ⟨1, 1, 0, 2, 1, ⟨2, 1, 5, 7, [0, 1]⟩, 2, 2, 0, 0⟩
        (vdev_draid_get_perm ⟨1, 1, 0, 2, 1, ⟨2, 1, 5, 7, [0, 1]⟩, 2, 2, 0, 0⟩ 3).1
        (vdev_draid_get_perm ⟨1, 1, 0, 2, 1, ⟨2, 1, 5, 7, [0, 1]⟩, 2, 2, 0, 0⟩ 3).2
        c < 2) ∧
    (∀ i j, i < (2 : ℕ) → j < (2 : ℕ) → i ≠ j →
      vdev_draid_permute_id ⟨1, 1, 0, 2, 1, ⟨2, 1, 5, 7, [0, 1]⟩, 2, 2, 0, 0⟩
          (vdev_draid_get_perm ⟨1, 1, 0, 2, 1, ⟨2, 1, 5, 7, [0, 1]⟩, 2, 2, 0, 0⟩ 3).1
          (vdev_draid_get_perm ⟨1, 1, 0, 2, 1, ⟨2, 1, 5, 7, [0, 1]⟩, 2, 2, 0, 0⟩ 3).2
          ((1 + i) % 2) ≠
        vdev_draid_permute_id ⟨1, 1, 0, 2, 1, ⟨2, 1, 5, 7, [0, 1]⟩, 2, 2, 0, 0⟩
          (vdev_draid_get_perm ⟨1, 1, 0, 2, 1, ⟨2, 1, 5, 7, [0, 1]⟩, 2, 2, 0, 0⟩ 3).1
          (vdev_draid_get_perm ⟨1, 1, 0, 2, 1, ⟨2, 1, 5, 7, [0, 1]⟩, 2, 2, 0, 0⟩ 3).2
          ((1 + j) % 2)) :=
  vdev_draid_permute_id_range_distinct
    ⟨1, 1, 0, 2, 1, ⟨2, 1, 5, 7, [0, 1]⟩, 2, 2, 0, 0⟩ rfl (by decide)
    (by decide) (by decide) (by decide) (by decide) (by decide) 3 1

lemma sum_ite_lt (x y : ℕ) :
    ∀ n b : ℕ, b ≤ n →
      ∑ i ∈ Finset.range n, (if i < b then x else y) = b * x + (n - b) * y := by
  intro n
  induction n with
  | zero =>
      intro b hb
      have : b = 0 := by omega
      subst this
      simp
  | succ n ih =>
      intro b hb
      rw [Finset.sum_range_succ]
      by_cases h : b ≤ n
      · rw [ih b h, if_neg (by omega)]
        have h1 : n + 1 - b = (n - b) + 1 := by omega
        rw [h1, Nat.succ_mul]
        omega
      · have hbeq : b = n + 1 := by omega
        subst hbeq
        rw [if_pos (by omega)]
        have hsum : ∑ i ∈ Finset.range n, (if i < n + 1 then x else y) = n * x := by
          rw [Finset.sum_congr rfl
            (fun i hi => if_pos (by
              have := Finset.mem_range.mp hi
              omega))]
          simp [Finset.sum_const, Finset.card_range, Nat.smul_one_eq_cast]
        rw [hsum]
        have h2 : n + 1 - (n + 1) = 0 := by omega
        rw [h2, Nat.succ_mul]
        omega

lemma roundup_exact (q g : ℕ) (hg : 0 < g) : roundup (q * g) g = q * g := by
  rw [roundup, Nat.mul_comm q g, Nat.mul_add_div hg,
    Nat.div_eq_of_lt (by omega)]
  ring

lemma roundup_partial (q g b : ℕ) (hb0 : 0 < b) (hbg : b < g) :
    roundup (q * g + b) g = (q + 1) * g := by
  rw [roundup, Nat.add_assoc, Nat.mul_comm q g, Nat.mul_add_div (by omega),
    show b + (g - 1) = (b - 1) + g by omega, Nat.add_div_right _ (by omega),
    Nat.div_eq_of_lt (by omega)]

/-- C2: for an I/O of `s > 0` sectors (`io_size = s * 2^ashift`), the row
map built by `vdev_draid_map_alloc` has the claimed `(q, r, bc)` column
sizes, its column sizes sum to `tot * 2^ashift`, the recorded `asize` is
that sum rounded up to a multiple of `groupwidth` sectors, `nskip` is
`roundup(tot, groupwidth) - tot < ndata`, and after the write layout every
column's buffer has the parity column's size. -/
theorem vdev_draid_map_alloc_spec (vdc : vdev_draid_config) (ashift s : ℕ)
    (hgw : vdc.vdc_groupwidth = vdc.vdc_ndata + vdc.vdc_nparity)
    (hnd : 0 < vdc.vdc_ndata) (hnp : 0 < vdc.vdc_nparity) (hs : 0 < s) :
    ((vdev_draid_map_alloc vdc ashift (s * 2 ^ ashift)).rm_scols =
        vdc.vdc_groupwidth ∧
     (vdev_draid_map_alloc vdc ashift (s * 2 ^ ashift)).rm_firstdatacol =
        vdc.vdc_nparity ∧
     (vdev_draid_map_alloc vdc ashift (s * 2 ^ ashift)).rm_cols =
        (if s / vdc.vdc_ndata = 0
          then (if s - s / vdc.vdc_ndata * vdc.vdc_ndata = 0 then 0
            else s - s / vdc.vdc_ndata * vdc.vdc_ndata + vdc.vdc_nparity)
          else vdc.vdc_groupwidth)) ∧
    (∀ i : ℕ,
      (vdev_draid_map_alloc vdc ashift (s * 2 ^ ashift)).rm_col_size i =
        if (vdev_draid_map_alloc vdc ashift (s * 2 ^ ashift)).rm_cols ≤ i then 0
        else if i < (if s - s / vdc.vdc_ndata * vdc.vdc_ndata = 0 then 0
            else s - s / vdc.vdc_ndata * vdc.vdc_ndata + vdc.vdc_nparity)
          then (s / vdc.vdc_ndata + 1) * 2 ^ ashift
          else s / vdc.vdc_ndata * 2 ^ ashift) ∧
    (∑ i ∈ Finset.range vdc.vdc_groupwidth,
        (vdev_draid_map_alloc vdc ashift (s * 2 ^ ashift)).rm_col_size i =
      (s + vdc.vdc_nparity * (s / vdc.vdc_ndata +
        if s - s / vdc.vdc_ndata * vdc.vdc_ndata = 0 then 0 else 1)) *
        2 ^ ashift) ∧
    ((vdev_draid_map_alloc vdc ashift (s * 2 ^ ashift)).rm_asize =
      roundup ((s + vdc.vdc_nparity * (s / vdc.vdc_ndata +
          if s - s / vdc.vdc_ndata * vdc.vdc_ndata = 0 then 0 else 1)) *
          2 ^ ashift)
        (vdc.vdc_groupwidth * 2 ^ ashift)) ∧
    ((vdev_draid_map_alloc vdc ashift (s * 2 ^ ashift)).rm_nskip =
      roundup (s + vdc.vdc_nparity * (s / vdc.vdc_ndata +
          if s - s / vdc.vdc_ndata * vdc.vdc_ndata = 0 then 0 else 1))
        vdc.vdc_groupwidth -
        (s + vdc.vdc_nparity * (s / vdc.vdc_ndata +
          if s - s / vdc.vdc_ndata * vdc.vdc_ndata = 0 then 0 else 1)) ∧
     (vdev_draid_map_alloc vdc ashift (s * 2 ^ ashift)).rm_nskip <
        vdc.vdc_ndata) ∧
    (∀ c, c < vdc.vdc_groupwidth →
      vdev_draid_map_alloc_write (vdev_draid_map_alloc vdc ashift (s * 2 ^ ashift))
          ashift c =
        (vdev_draid_map_alloc vdc ashift (s * 2 ^ ashift)).rm_col_size 0) := by
  have h2a : (0 : ℕ) < 2 ^ ashift := Nat.pos_pow_of_pos _ (by norm_num)
  have hpsize : (s * 2 ^ ashift) >>> ashift = s := by
    rw [Nat.shiftRight_eq_div_pow]
    exact Nat.mul_div_cancel _ h2a
  have hq_le : s / vdc.vdc_ndata * vdc.vdc_ndata ≤ s := Nat.div_mul_le_self s _
  have hmod : s - s / vdc.vdc_ndata * vdc.vdc_ndata = s % vdc.vdc_ndata := by
    have h1 := Nat.div_add_mod s vdc.vdc_ndata
    have h2 : vdc.vdc_ndata * (s / vdc.vdc_ndata) =
        s / vdc.vdc_ndata * vdc.vdc_ndata := by ring
    omega
  have hrlt : s - s / vdc.vdc_ndata * vdc.vdc_ndata < vdc.vdc_ndata := by
    rw [hmod]
    exact Nat.mod_lt _ hnd
  have hcols : (vdev_draid_map_alloc vdc ashift (s * 2 ^ ashift)).rm_cols =
      (if s / vdc.vdc_ndata = 0
        then (if s - s / vdc.vdc_ndata * vdc.vdc_ndata = 0 then 0
          else s - s / vdc.vdc_ndata * vdc.vdc_ndata + vdc.vdc_nparity)
        else vdc.vdc_groupwidth) := by
    simp only [vdev_draid_map_alloc, hpsize]
  have hcol : ∀ i : ℕ,
      (vdev_draid_map_alloc vdc ashift (s * 2 ^ ashift)).rm_col_size i =
        if (vdev_draid_map_alloc vdc ashift (s * 2 ^ ashift)).rm_cols ≤ i then 0
        else if i < (if s - s / vdc.vdc_ndata * vdc.vdc_ndata = 0 then 0
            else s - s / vdc.vdc_ndata * vdc.vdc_ndata + vdc.vdc_nparity)
          then (s / vdc.vdc_ndata + 1) * 2 ^ ashift
          else s / vdc.vdc_ndata * 2 ^ ashift := by
    intro i
    simp only [vdev_draid_map_alloc, hpsize, Nat.shiftLeft_eq]
  have hnskip_eq : (vdev_draid_map_alloc vdc ashift (s * 2 ^ ashift)).rm_nskip =
      roundup (s + vdc.vdc_nparity * (s / vdc.vdc_ndata +
          if s - s / vdc.vdc_ndata * vdc.vdc_ndata = 0 then 0 else 1))
        vdc.vdc_groupwidth -
        (s + vdc.vdc_nparity * (s / vdc.vdc_ndata +
          if s - s / vdc.vdc_ndata * vdc.vdc_ndata = 0 then 0 else 1)) := by
    simp only [vdev_draid_map_alloc, hpsize]
  have hasz0 : (vdev_draid_map_alloc vdc ashift (s * 2 ^ ashift)).rm_asize =
      roundup (∑ i ∈ Finset.range vdc.vdc_groupwidth,
          (vdev_draid_map_alloc vdc ashift (s * 2 ^ ashift)).rm_col_size i)
        (vdc.vdc_groupwidth * 2 ^ ashift) := by
    simp only [vdev_draid_map_alloc, Nat.shiftLeft_eq]
  -- the column sizes sum to `tot` sectors
  have hsum : ∑ i ∈ Finset.range vdc.vdc_groupwidth,
      (vdev_draid_map_alloc vdc ashift (s * 2 ^ ashift)).rm_col_size i =
      (s + vdc.vdc_nparity * (s / vdc.vdc_ndata +
        if s - s / vdc.vdc_ndata * vdc.vdc_ndata = 0 then 0 else 1)) *
        2 ^ ashift := by
    rw [Finset.sum_congr rfl fun i _ => hcol i]
    simp only [hcols]
    set Q := s / vdc.vdc_ndata with hQdef
    set R := s - Q * vdc.vdc_ndata with hRdef
    have hseq : s = Q * vdc.vdc_ndata + R := by omega
    by_cases hr0 : R = 0
    · -- no remainder: q > 0, all populated columns carry q sectors
      have hq0 : 0 < Q := by
        rcases Nat.eq_zero_or_pos Q with h | h
        · exfalso
          rw [h] at hseq
          simp at hseq
          omega
        · exact h
      have hQne : ¬ Q = 0 := by omega
      have hpt : ∀ i ∈ Finset.range vdc.vdc_groupwidth,
          (if (if Q = 0 then (if R = 0 then 0 else R + vdc.vdc_nparity)
              else vdc.vdc_groupwidth) ≤ i then 0
            else if i < (if R = 0 then 0 else R + vdc.vdc_nparity)
              then (Q + 1) * 2 ^ ashift
              else Q * 2 ^ ashift) = Q * 2 ^ ashift := by
        intro i hi
        have hilt := Finset.mem_range.mp hi
        simp [hQne, hr0, Nat.not_le.mpr hilt]
      rw [Finset.sum_congr rfl hpt, Finset.sum_const, Finset.card_range,
        smul_eq_mul, hgw]
      rw [hr0] at hseq
      rw [hseq, hr0]
      simp
      ring
    · by_cases hq0 : Q = 0
      · have hpt : ∀ i ∈ Finset.range vdc.vdc_groupwidth,
            (if (if Q = 0 then (if R = 0 then 0 else R + vdc.vdc_nparity)
                else vdc.vdc_groupwidth) ≤ i then 0
              else if i < (if R = 0 then 0 else R + vdc.vdc_nparity)
                then (Q + 1) * 2 ^ ashift
                else Q * 2 ^ ashift) =
            (if i < R + vdc.vdc_nparity then (Q + 1) * 2 ^ ashift else 0) := by
          intro i _
          rw [show (if Q = 0 then (if R = 0 then 0 else R + vdc.vdc_nparity)
              else vdc.vdc_groupwidth) = R + vdc.vdc_nparity from by
            rw [if_pos hq0, if_neg hr0], if_neg hr0]
          split_ifs <;> first | rfl | omega
        rw [Finset.sum_congr rfl hpt,
          sum_ite_lt _ _ _ _ (by omega : R + vdc.vdc_nparity ≤ vdc.vdc_groupwidth)]
        have hsR : s = R := by
          rw [hseq, hq0]
          simp
        rw [hq0, hsR]
        simp [hr0]
      · have hpt : ∀ i ∈ Finset.range vdc.vdc_groupwidth,
            (if (if Q = 0 then (if R = 0 then 0 else R + vdc.vdc_nparity)
                else vdc.vdc_groupwidth) ≤ i then 0
              else if i < (if R = 0 then 0 else R + vdc.vdc_nparity)
                then (Q + 1) * 2 ^ ashift
                else Q * 2 ^ ashift) =
            (if i < R + vdc.vdc_nparity then (Q + 1) * 2 ^ ashift
              else Q * 2 ^ ashift) := by
          intro i hi
          have hilt := Finset.mem_range.mp hi
          rw [if_neg hq0, if_neg (Nat.not_le.mpr hilt), if_neg hr0]
        rw [Finset.sum_congr rfl hpt,
          sum_ite_lt _ _ _ _ (by omega : R + vdc.vdc_nparity ≤ vdc.vdc_groupwidth)]
        have hgwT : vdc.vdc_groupwidth - (R + vdc.vdc_nparity) =
            vdc.vdc_ndata - R := by omega
        have hndR : vdc.vdc_ndata = R + (vdc.vdc_ndata - R) := by omega
        rw [hgwT, hseq, hndR]
        ring_nf
        have h1 : R + (vdc.vdc_ndata - R) - R = vdc.vdc_ndata - R := by omega
        rw [h1, if_neg hr0]
        ring
  refine ⟨⟨rfl, rfl, hcols⟩, hcol, hsum, ?_, ⟨hnskip_eq, ?_⟩, ?_⟩
  · rw [hasz0, hsum]
  · -- nskip < ndata
    rw [hnskip_eq]
    set Q := s / vdc.vdc_ndata with hQdef
    set R := s - Q * vdc.vdc_ndata with hRdef
    have hseq : s = Q * vdc.vdc_ndata + R := by omega
    have hgwpos : 0 < vdc.vdc_groupwidth := by omega
    by_cases hr0 : R = 0
    · have htotq : s + vdc.vdc_nparity * (Q + if R = 0 then 0 else 1) =
          Q * vdc.vdc_groupwidth := by
        rw [if_pos hr0, hgw]
        rw [hr0] at hseq
        rw [hseq]
        ring
      rw [htotq, roundup_exact _ _ hgwpos]
      omega
    · have htot2 : s + vdc.vdc_nparity * (Q + if R = 0 then 0 else 1) =
          Q * vdc.vdc_groupwidth + (R + vdc.vdc_nparity) := by
        rw [if_neg hr0, hgw, hseq]
        ring
      rw [htot2, roundup_partial _ _ _ (by omega) (by omega)]
      have hexp : (Q + 1) * vdc.vdc_groupwidth =
          Q * vdc.vdc_groupwidth + vdc.vdc_groupwidth := by ring
      omega
  · -- write layout: every column buffer has the parity column size
    intro c hc
    have hss : (vdev_draid_map_alloc vdc ashift (s * 2 ^ ashift)).rm_skipstart =
        (if s - s / vdc.vdc_ndata * vdc.vdc_ndata = 0 then 0
          else s - s / vdc.vdc_ndata * vdc.vdc_ndata + vdc.vdc_nparity) := by
      simp only [vdev_draid_map_alloc, hpsize]
    have hfdc : (vdev_draid_map_alloc vdc ashift (s * 2 ^ ashift)).rm_firstdatacol =
        vdc.vdc_nparity := rfl
    simp only [vdev_draid_map_alloc_write, hss, hfdc, hcols, hcol,
      Nat.shiftLeft_eq, one_mul]
    set Q := s / vdc.vdc_ndata with hQdef
    set R := s - Q * vdc.vdc_ndata with hRdef
    have hseq : s = Q * vdc.vdc_ndata + R := by omega
    have hXY : (Q + 1) * 2 ^ ashift = Q * 2 ^ ashift + 2 ^ ashift := by ring
    by_cases hr0 : R = 0
    · have hq0 : 0 < Q := by
        rcases Nat.eq_zero_or_pos Q with h | h
        · exfalso
          rw [h] at hseq
          simp at hseq
          omega
        · exact h
      simp only [hr0, if_pos rfl, if_neg (by omega : ¬ Q = 0)]
      split_ifs <;> omega
    · by_cases hq0 : Q = 0
      · simp only [hq0, if_pos rfl, if_neg hr0]
        have hR : R = s := by
          rw [hseq]
          simp [hq0]
        split_ifs <;> omega
      · simp only [if_neg hq0, if_neg hr0]
        split_ifs <;> omega

/-- C2 witness: the map-allocation theorem for a 4 KiB write (`s = 1`
sector, `ashift = 12`) on a `draid1:8d:14c:2s` configuration
(`groupwidth = 9`): fewer than `ndata` skip sectors, and the write layout
gives every column the parity column's buffer size. -/
theorem vdev_draid_map_alloc_spec_witness :
    (vdev_draid_map_alloc ⟨8, 1, 2, 14, 13, draid_map_zero, 9, 12, 0, 0⟩ 12
        (1 * 2 ^ 12)).rm_nskip < 8 ∧
    (∀ c, c < 9 →
      vdev_draid_map_alloc_write
          (vdev_draid_map_alloc ⟨8, 1, 2, 14, 13, draid_map_zero, 9, 12, 0, 0⟩ 12
            (1 * 2 ^ 12)) 12 c =
        (vdev_draid_map_alloc ⟨8, 1, 2, 14, 13, draid_map_zero, 9, 12, 0, 0⟩ 12
          (1 * 2 ^ 12)).rm_col_size 0) :=
  ⟨(vdev_draid_map_alloc_spec ⟨8, 1, 2, 14, 13, draid_map_zero, 9, 12, 0, 0⟩ 12 1
      rfl (by decide) (by decide) (by decide)).2.2.2.2.1.2,
   (vdev_draid_map_alloc_spec ⟨8, 1, 2, 14, 13, draid_map_zero, 9, 12, 0, 0⟩ 12 1
      rfl (by decide) (by decide) (by decide)).2.2.2.2.2⟩

lemma getD_set_self (l : List ℕ) (n x : ℕ) (h : n < l.length) :
    (l.set n x).getD n 0 = x := by
  rw [List.getD_eq_getElem _ _ (by simpa using h)]
  exact List.getElem_set_self (by simpa using h)

lemma getD_set_ne (l : List ℕ) (n m x : ℕ) (h : n ≠ m) :
    (l.set n x).getD m 0 = l.getD m 0 := by
  rw [List.getD_eq_getD_get?, List.getD_eq_getD_get?, List.get?_eq_getElem?,
    List.get?_eq_getElem?, List.getElem?_set_ne h]

lemma succ_mod_u16_ne (i : ℕ) : (i + 1) % 2 ^ 16 ≠ i := by
  omega

lemma check_map_row_spec (children i : ℕ) :
    ∀ (vals counts seen : List ℕ),
      counts.length = children →
      (∀ v, v < children → counts.getD v 0 =
        if v ∈ seen then (i + 1) % 2 ^ 16 else i) →
      (((check_map_row children i counts vals).isSome ↔
          vals.Nodup ∧ ∀ v ∈ vals, v < children ∧ v ∉ seen) ∧
       ∀ counts', check_map_row children i counts vals = some counts' →
         counts'.length = children ∧
         ∀ v, v < children → counts'.getD v 0 =
           if v ∈ seen ∨ v ∈ vals then (i + 1) % 2 ^ 16 else i) := by
  intro vals
  induction vals with
  | nil =>
      intro counts seen hclen hcinv
      refine ⟨by simp [check_map_row], ?_⟩
      intro counts' hsome
      rw [check_map_row] at hsome
      injection hsome with hsome
      subst hsome
      refine ⟨hclen, ?_⟩
      intro v hv
      rw [hcinv v hv]
      simp
  | cons v rest ih =>
      intro counts seen hclen hcinv
      rw [check_map_row]
      by_cases hvch : children ≤ v
      · rw [if_pos (Or.inl hvch)]
        constructor
        · simp only [Option.isSome_none, Bool.false_eq_true, false_iff]
          intro ⟨_, hall⟩
          have := (hall v (by simp)).1
          omega
        · intro counts' h
          cases h
      · push_neg at hvch
        by_cases hvseen : v ∈ seen
        · have hget : counts.getD v 0 ≠ i := by
            rw [hcinv v hvch, if_pos hvseen]
            exact succ_mod_u16_ne i
          rw [if_pos (Or.inr hget)]
          constructor
          · simp only [Option.isSome_none, Bool.false_eq_true, false_iff]
            intro ⟨_, hall⟩
            exact (hall v (by simp)).2 hvseen
          · intro counts' h
            cases h
        · have hget : counts.getD v 0 = i := by
            rw [hcinv v hvch, if_neg hvseen]
          rw [if_neg (by push_neg; exact ⟨hvch, by rw [hget]⟩)]
          rw [hget]
          have hclen2 : (counts.set v ((i + 1) % 2 ^ 16)).length = children := by
            rw [List.length_set]
            exact hclen
          have hcinv2 : ∀ w, w < children →
              (counts.set v ((i + 1) % 2 ^ 16)).getD w 0 =
                if w ∈ v :: seen then (i + 1) % 2 ^ 16 else i := by
            intro w hw
            by_cases hwv : w = v
            · subst hwv
              rw [getD_set_self _ _ _ (by omega), if_pos (by simp)]
            · rw [getD_set_ne _ _ _ _ (fun h => hwv h.symm), hcinv w hw]
              by_cases hws : w ∈ seen
              · rw [if_pos hws, if_pos (by simp [hws])]
              · rw [if_neg hws, if_neg (by simp [hwv, hws])]
          obtain ⟨hiff, hpost⟩ := ih (counts.set v ((i + 1) % 2 ^ 16)) (v :: seen)
            hclen2 hcinv2
          constructor
          · rw [hiff]
            constructor
            · intro ⟨hnd, hall⟩
              refine ⟨List.nodup_cons.mpr ⟨?_, hnd⟩, ?_⟩
              · intro hvrest
                exact ((hall v hvrest).2 (by simp))
              · intro w hw
                rcases List.mem_cons.mp hw with h | h
                · subst h
                  exact ⟨hvch, hvseen⟩
                · obtain ⟨h1, h2⟩ := hall w h
                  exact ⟨h1, fun hws => h2 (by simp [hws])⟩
            · intro ⟨hnd, hall⟩
              have hvnotrest : v ∉ rest := (List.nodup_cons.mp hnd).1
              refine ⟨(List.nodup_cons.mp hnd).2, ?_⟩
              intro w hw
              obtain ⟨h1, h2⟩ := hall w (by simp [hw])
              refine ⟨h1, ?_⟩
              intro hws
              rcases List.mem_cons.mp hws with h | h
              · subst h
                exact hvnotrest hw
              · exact h2 h
          · intro counts' hsome
            obtain ⟨h1, h2⟩ := hpost counts' hsome
            refine ⟨h1, ?_⟩
            intro w hw
            rw [h2 w hw]
            by_cases hmem : w ∈ v :: seen ∨ w ∈ rest
            · rw [if_pos hmem, if_pos (by
                rcases hmem with h | h
                · rcases List.mem_cons.mp h with h | h
                  · subst h
                    exact Or.inr (by simp)
                  · exact Or.inl h
                · exact Or.inr (by simp [h]))]
            · rw [if_neg hmem, if_neg (by
                intro hcon
                apply hmem
                rcases hcon with h | h
                · exact Or.inl (by simp [h])
                · rcases List.mem_cons.mp h with h | h
                  · subst h
                    exact Or.inl (by simp)
                  · exact Or.inr h)]

lemma draid_row_length (perms : List ℕ) (children nperms k : ℕ)
    (hlen : perms.length = nperms * children) (hk : k < nperms) :
    (draid_row perms children k).length = children := by
  rw [draid_row, List.length_take, List.length_drop, hlen]
  have h1 : (k + 1) * children ≤ nperms * children :=
    Nat.mul_le_mul_right _ hk
  have h2 : (k + 1) * children = k * children + children := by ring
  omega

lemma row_perm_of_nodup_bounded {row : List ℕ} {children : ℕ}
    (hnd : row.Nodup) (hbound : ∀ v ∈ row, v < children)
    (hlen : row.length = children) : row.Perm (List.range children) := by
  have h1 : row.Subperm (List.range children) :=
    List.subperm_of_subset hnd (fun v hv => List.mem_range.mpr (hbound v hv))
  exact h1.perm_of_length_le (by simp [hlen])

lemma check_map_rows_spec (children nperms : ℕ) (perms : List ℕ)
    (hnp : nperms ≤ 2 ^ 16) (hlen : perms.length = nperms * children) :
    ∀ (rem i : ℕ) (counts : List ℕ), rem + i = nperms →
      counts.length = children →
      (∀ v, v < children → counts.getD v 0 = i % 2 ^ 16) →
      ((check_map_rows children perms rem i counts).isSome ↔
        ∀ k, i ≤ k → k < nperms →
          (draid_row perms children k).Perm (List.range children)) := by
  intro rem
  induction rem with
  | zero =>
      intro i counts hrem _ _
      simp only [check_map_rows, Option.isSome_some, true_iff]
      intro k hk1 hk2
      omega
  | succ rem ih =>
      intro i counts hrem hclen hcinv
      have hi16 : i < 2 ^ 16 := by omega
      have hcinv' : ∀ v, v < children →
          counts.getD v 0 = if v ∈ ([] : List ℕ) then (i + 1) % 2 ^ 16 else i := by
        intro v hv
        rw [hcinv v hv, Nat.mod_eq_of_lt hi16]
        simp
      obtain ⟨hiff, hpost⟩ := check_map_row_spec children i
        (draid_row perms children i) counts [] hclen hcinv'
      have hrowlen : (draid_row perms children i).length = children :=
        draid_row_length perms children nperms i hlen (by omega)
      rw [check_map_rows]
      cases hrow : check_map_row children i counts (draid_row perms children i) with
      | none =>
          simp only [Option.isSome_none, Bool.false_eq_true, false_iff]
          intro hall
          have hperm := hall i (le_refl i) (by omega)
          have : (check_map_row children i counts
              (draid_row perms children i)).isSome := by
            rw [hiff]
            refine ⟨hperm.nodup_iff.mpr (List.nodup_range _), ?_⟩
            intro v hv
            exact ⟨List.mem_range.mp (hperm.mem_iff.mp hv), by simp⟩
          rw [hrow] at this
          simp at this
      | some counts2 =>
          have hrowok : (draid_row perms children i).Nodup ∧
              ∀ v ∈ draid_row perms children i, v < children := by
            have : (check_map_row children i counts
                (draid_row perms children i)).isSome := by
              rw [hrow]
              rfl
            obtain ⟨h1, h2⟩ := hiff.mp this
            exact ⟨h1, fun v hv => (h2 v hv).1⟩
          have hperm : (draid_row perms children i).Perm (List.range children) :=
            row_perm_of_nodup_bounded hrowok.1 hrowok.2 hrowlen
          obtain ⟨hc2len, hc2inv⟩ := hpost counts2 hrow
          have hc2inv' : ∀ v, v < children →
              counts2.getD v 0 = (i + 1) % 2 ^ 16 := by
            intro v hv
            rw [hc2inv v hv, if_pos]
            right
            exact hperm.mem_iff.mpr (List.mem_range.mpr hv)
          rw [ih (i + 1) counts2 (by omega) hc2len hc2inv']
          constructor
          · intro hall k hk1 hk2
            rcases Nat.eq_or_lt_of_le hk1 with h | h
            · rw [← h]
              exact hperm
            · exact hall k h hk2
          · intro hall k hk1 hk2
            exact hall k (by omega) hk2

lemma list_swap_length (l : List ℕ) (a b : ℕ) :
    (list_swap l a b).length = l.length := by
  simp [list_swap]

lemma fisher_yates_length (rand : ℕ → ℕ) :
    ∀ (j t : ℕ) (row : List ℕ), (fisher_yates rand t j row).1.length = row.length := by
  intro j
  induction j with
  | zero => intro t row; rfl
  | succ j ih =>
      intro t row
      rw [fisher_yates, ih]
      exact list_swap_length _ _ _

lemma generate_rows_flatten_length (rand : ℕ → ℕ) (children : ℕ) :
    ∀ (n t : ℕ) (prev : List ℕ), prev.length = children →
      ((generate_rows rand children t n prev).flatten).length = n * children := by
  intro n
  induction n with
  | zero => intro t prev _; simp [generate_rows]
  | succ n ih =>
      intro t prev hprev
      rw [generate_rows, List.flatten_cons, List.length_append,
        fisher_yates_length, hprev,
        ih _ _ (by rw [fisher_yates_length]; exact hprev)]
      ring

lemma generated_perms_length (rand : ℕ → ℕ) (children nperms : ℕ) :
    (generated_perms rand children nperms).length = nperms * children := by
  rw [generated_perms]
  exact generate_rows_flatten_length rand children nperms 0 (List.range children)
    (by simp)

lemma check_map_rows_iff (m : draid_map)
    (hlen : m.dm_perms.length = m.dm_nperms * m.dm_children)
    (hnp : m.dm_nperms ≤ 2 ^ 16) :
    (check_map_rows m.dm_children m.dm_perms m.dm_nperms 0
        (List.replicate m.dm_children 0)).isSome ↔
      ∀ k < m.dm_nperms,
        (draid_row m.dm_perms m.dm_children k).Perm (List.range m.dm_children) := by
  have hrep : ∀ v, v < m.dm_children →
      (List.replicate m.dm_children 0).getD v 0 = 0 % 2 ^ 16 := by
    intro v hv
    rw [Nat.zero_mod, List.getD_eq_getElem _ _ (by simpa using hv)]
    simp
  rw [check_map_rows_spec m.dm_children m.dm_nperms m.dm_perms hnp hlen
    m.dm_nperms 0 (List.replicate m.dm_children 0) (by omega) (by simp) hrep]
  constructor
  · exact fun h k hk => h k (Nat.zero_le _) hk
  · exact fun h k _ hk => h k hk

lemma check_map_zero_iff (m : draid_map)
    (hlen : m.dm_perms.length = m.dm_nperms * m.dm_children)
    (hnp : m.dm_nperms ≤ 2 ^ 16) :
    check_map m = 0 ↔
      ((∀ k < m.dm_nperms, (draid_row m.dm_perms m.dm_children k).Perm
          (List.range m.dm_children)) ∧
       (m.dm_checksum ≠ 0 → fletcher_4_word0 m.dm_perms = m.dm_checksum)) := by
  have hkey := check_map_rows_iff m hlen hnp
  rw [check_map]
  cases hres : check_map_rows m.dm_children m.dm_perms m.dm_nperms 0
      (List.replicate m.dm_children 0) with
  | none =>
      rw [hres] at hkey
      simp only [Option.isSome_none, Bool.false_eq_true, false_iff] at hkey
      simp only [EINVAL]
      constructor
      · intro h
        omega
      · intro ⟨h1, _⟩
        exact absurd h1 hkey
  | some counts2 =>
      rw [hres] at hkey
      simp only [Option.isSome_some, true_iff] at hkey
      by_cases hck : m.dm_checksum ≠ 0
      · rw [if_pos hck]
        by_cases hfl : fletcher_4_word0 m.dm_perms ≠ m.dm_checksum
        · rw [if_pos hfl]
          simp only [ECKSUM]
          constructor
          · intro h
            omega
          · intro ⟨_, h2⟩
            exact absurd (h2 hck) hfl
        · push_neg at hfl
          rw [if_neg (by omega)]
          exact ⟨fun _ => ⟨hkey, fun _ => hfl⟩, fun _ => rfl⟩
      · rw [if_neg hck]
        push_neg at hck
        exact ⟨fun _ => ⟨hkey, fun h => absurd hck h⟩, fun _ => rfl⟩

/-- C4: `check_map` succeeds (returns 0) iff every one of the `nperms` rows
of the map is a permutation of `0..children-1` and, when the recorded
checksum is non-zero, the fletcher-4 64-bit checksum of the flat
`children * nperms` byte array equals it; a non-permutation row yields
`EINVAL` (checked first, by the single-pass tally with the row-index
sentinel), a non-zero mismatching checksum yields `ECKSUM`; and hence
`vdev_draid_generate_map` returns its generated map exactly when that map
passes the same permutation/checksum validation.  (`nperms ≤ 2^16` because
the tallies are `uint16_t`.) -/
theorem check_map_spec (m : draid_map)
    (hlen : m.dm_perms.length = m.dm_nperms * m.dm_children)
    (hnp : m.dm_nperms ≤ 2 ^ 16) :
    (check_map m = 0 ↔
      ((∀ k < m.dm_nperms, (draid_row m.dm_perms m.dm_children k).Perm
          (List.range m.dm_children)) ∧
       (m.dm_checksum ≠ 0 → fletcher_4_word0 m.dm_perms = m.dm_checksum))) ∧
    (¬ (∀ k < m.dm_nperms, (draid_row m.dm_perms m.dm_children k).Perm
        (List.range m.dm_children)) → check_map m = EINVAL) ∧
    ((∀ k < m.dm_nperms, (draid_row m.dm_perms m.dm_children k).Perm
        (List.range m.dm_children)) → m.dm_checksum ≠ 0 →
      fletcher_4_word0 m.dm_perms ≠ m.dm_checksum → check_map m = ECKSUM) ∧
    (∀ rand : ℕ → ℕ,
      vdev_draid_generate_map rand m.dm_children m.dm_seed m.dm_checksum
          m.dm_nperms =
        Except.ok ⟨m.dm_children, m.dm_nperms, m.dm_seed, m.dm_checksum,
          generated_perms rand m.dm_children m.dm_nperms⟩ ↔
      ((∀ k < m.dm_nperms,
          (draid_row (generated_perms rand m.dm_children m.dm_nperms)
            m.dm_children k).Perm (List.range m.dm_children)) ∧
       (m.dm_checksum ≠ 0 →
         fletcher_4_word0 (generated_perms rand m.dm_children m.dm_nperms) =
           m.dm_checksum))) := by
  refine ⟨check_map_zero_iff m hlen hnp, ?_, ?_, ?_⟩
  · intro hnot
    have hkey := check_map_rows_iff m hlen hnp
    rw [check_map]
    cases hres : check_map_rows m.dm_children m.dm_perms m.dm_nperms 0
        (List.replicate m.dm_children 0) with
    | none => rfl
    | some counts2 =>
        rw [hres] at hkey
        simp only [Option.isSome_some, true_iff] at hkey
        exact absurd hkey hnot
  · intro hall hck hfl
    have hzero := check_map_zero_iff m hlen hnp
    have hkey := check_map_rows_iff m hlen hnp
    rw [check_map]
    cases hres : check_map_rows m.dm_children m.dm_perms m.dm_nperms 0
        (List.replicate m.dm_children 0) with
    | none =>
        rw [hres] at hkey
        simp only [Option.isSome_none, Bool.false_eq_true, false_iff] at hkey
        exact absurd hall hkey
    | some counts2 =>
        rw [if_pos hck, if_pos hfl]
  · intro rand
    have hglen : (generated_perms rand m.dm_children m.dm_nperms).length =
        m.dm_nperms * m.dm_children := generated_perms_length _ _ _
    have hgiff := check_map_zero_iff
      ⟨m.dm_children, m.dm_nperms, m.dm_seed, m.dm_checksum,
        generated_perms rand m.dm_children m.dm_nperms⟩ hglen hnp
    rw [vdev_draid_generate_map]
    constructor
    · intro h
      by_cases hc : check_map ⟨m.dm_children, m.dm_nperms, m.dm_seed,
          m.dm_checksum, generated_perms rand m.dm_children m.dm_nperms⟩ = 0
      · exact hgiff.mp hc
      · rw [if_neg hc] at h
        cases h
    · intro h
      rw [if_pos (hgiff.mpr h)]

/-- C4 witness: the `check_map` theorem at the two-child map with the
single identity row `[0, 1]` and no recorded checksum: validation
succeeds. -/
theorem check_map_spec_witness : check_map ⟨2, 1, 5, 0, [0, 1]⟩ = 0 :=
  (check_map_spec ⟨2, 1, 5, 0, [0, 1]⟩ (by decide) (by decide)).1.mpr
    ⟨by decide, by simp⟩
